import Mathlib

/-!
# Verification of the parselglossy validation engine

A shallow embedding of the validation/merge/defaulting engine of the
`parselglossy` library, together with theorems settling the specification
claims about it.

The embedding follows the source files:

* `parselglossy/utils.py` (type registry, `location_in_dict`),
* `parselglossy/views.py` (tree views),
* `parselglossy/check_template.py` (schema checker, cycle detection,
  keyword reordering),
* `parselglossy/validation_plumbing.py` (merge engine, default fixing,
  predicate checking, `run_callable`, `run_predicate`),
* the orchestration in `parselglossy/api.py` / the `validate_from_dicts`
  porcelain (the porcelain module itself is absent from the source tree;
  it is modelled from the spec where noted).

Python dictionaries are modelled as insertion-ordered association lists,
Python scalars by an inductive `Value` type (floats as rationals), and
Python exceptions by an explicit `PyExc` error type threaded through
`Except`.  Host-language facilities that the engine delegates to (the
`eval` of default/predicate expressions, `networkx`) are modelled from the
spec, as marked on the individual definitions.
-/

/-- An exact rational with an unnormalized `num / den` representation
(`den` is kept non-zero by every constructor the engine uses), standing
in for Python floats.  All operations are structurally recursive so that
closed computations reduce definitionally. -/
structure PyRat where
  num : Int
  den : Int
deriving Repr

/-- Embed an integer. -/
def PyRat.ofInt (n : Int) : PyRat := ⟨n, 1⟩

/-- Whether the rational is zero. -/
def PyRat.isZero (a : PyRat) : Bool := a.num == 0

/-- Addition. -/
def PyRat.add (a b : PyRat) : PyRat := ⟨a.num * b.den + b.num * a.den, a.den * b.den⟩

/-- Subtraction. -/
def PyRat.sub (a b : PyRat) : PyRat := ⟨a.num * b.den - b.num * a.den, a.den * b.den⟩

/-- Multiplication. -/
def PyRat.mul (a b : PyRat) : PyRat := ⟨a.num * b.num, a.den * b.den⟩

/-- Division (the caller guards against a zero divisor). -/
def PyRat.div (a b : PyRat) : PyRat := ⟨a.num * b.den, a.den * b.num⟩

/-- Value equality (cross multiplication). -/
def PyRat.beq (a b : PyRat) : Bool := a.num * b.den == b.num * a.den

/-- Numerator and denominator with the sign moved to the numerator. -/
def PyRat.normSign (a : PyRat) : PyRat :=
  if a.den < 0 then ⟨-a.num, -a.den⟩ else a

/-- Value order: strictly less. -/
def PyRat.blt (a b : PyRat) : Bool :=
  let x := a.normSign
  let y := b.normSign
  decide (x.num * y.den < y.num * x.den)

/-- Value order: less or equal. -/
def PyRat.ble (a b : PyRat) : Bool :=
  let x := a.normSign
  let y := b.normSign
  decide (x.num * y.den ≤ y.num * x.den)

/-- Truncation toward zero, as Python's `int(float)`. -/
def PyRat.trunc (a : PyRat) : Int := Int.tdiv a.num a.den

/-- Floor, as Python's `//`/`math.floor`. -/
def PyRat.floor (a : PyRat) : Int :=
  let x := a.normSign
  Int.fdiv x.num x.den

/-- Interpret a run of decimal digits as a natural number. -/
def digitsToNat (cs : List Char) : Nat :=
  cs.foldl (fun acc c => acc * 10 + (c.toNat - 48)) 0

/-- Python's `str.strip()` restricted to ASCII whitespace. -/
def pyStrip (s : String) : String :=
  let ws := fun c => c = ' ' || c = '\t' || c = '\n' || c = '\r'
  String.mk (((s.toList.dropWhile ws).reverse.dropWhile ws).reverse)

/-- Python's `str.replace(pat, rep)` for a non-empty pattern: replace
every non-overlapping occurrence left to right (fuel is the string
length). -/
def replaceSubAux (pat rep : List Char) : Nat → List Char → List Char
  | 0, cs => cs
  | _, [] => []
  | fuel + 1, c :: rest =>
    if pat.isPrefixOf (c :: rest) then
      rep ++ replaceSubAux pat rep fuel ((c :: rest).drop pat.length)
    else
      c :: replaceSubAux pat rep fuel rest

/-- Python's `str.replace` on strings. -/
def replaceSub (s pat rep : String) : String :=
  String.mk (replaceSubAux pat.toList rep.toList s.toList.length s.toList)

/-- A Python runtime value, as far as the validation engine observes it:
`None`, scalars (`bool`, `int`, `float`, `complex`, `str`), lists and
(string-keyed, insertion-ordered) dictionaries.  Python floats are
modelled as exact rationals. -/
inductive Value where
  | vnull : Value
  | vbool (b : Bool) : Value
  | vint (n : Int) : Value
  | vfloat (q : PyRat) : Value
  | vcomplex (re im : PyRat) : Value
  | vstr (s : String) : Value
  | vlist (elems : List Value) : Value
  | vdict (entries : List (String × Value)) : Value
deriving Inhabited

/-- `type(value).__name__` for the modelled values. -/
def pyTypeName : Value → String
  | .vnull => "NoneType"
  | .vbool _ => "bool"
  | .vint _ => "int"
  | .vfloat _ => "float"
  | .vcomplex _ _ => "complex"
  | .vstr _ => "str"
  | .vlist _ => "list"
  | .vdict _ => "dict"

/-- Python truthiness (`bool(x)`): `None`, `False`, zero, empty string,
empty list and empty dict are falsy, everything else truthy. -/
def pyTruthy : Value → Bool
  | .vnull => false
  | .vbool b => b
  | .vint n => n != 0
  | .vfloat q => !q.isZero
  | .vcomplex re im => !re.isZero || !im.isZero
  | .vstr s => s != ""
  | .vlist xs => !xs.isEmpty
  | .vdict es => !es.isEmpty

/-- Whether a value is a Python `dict` (`isinstance(v, dict)`). -/
def Value.isDict : Value → Bool
  | .vdict _ => true
  | _ => false

/-- The Python exceptions the engine can raise or catch. The payload is
the exception's `str()` rendering (for `KeyError` it is the `repr` of the
missing key, which is how Python prints it). -/
inductive PyExc where
  | keyError (detail : String) : PyExc
  | typeError (detail : String) : PyExc
  | nameError (detail : String) : PyExc
  | syntaxError (detail : String) : PyExc
  | valueError (detail : String) : PyExc
  | attributeError (detail : String) : PyExc
  | indexError (detail : String) : PyExc
  | zeroDivisionError (detail : String) : PyExc
deriving Repr, DecidableEq

/-- Keys of a dict, in insertion order (`d.keys()`). -/
def dictKeys (es : List (String × Value)) : List String := es.map Prod.fst

/-- Membership test on a dict (`k in d.keys()`). -/
def dictHas (es : List (String × Value)) (k : String) : Bool :=
  (dictKeys es).contains k

/-- `d[k]` returning the first binding, with a fallback for absent keys
(used only under a `dictHas` guard, mirroring guarded Python indexing). -/
def dictGetD (es : List (String × Value)) (k : String) : Value :=
  match es.find? (fun e => e.fst == k) with
  | some e => e.snd
  | none => .vnull

/-- `d[k]` as Python indexing: raises `KeyError` when the key is absent. -/
def dictGetExc (es : List (String × Value)) (k : String) : Except PyExc Value :=
  match es.find? (fun e => e.fst == k) with
  | some e => .ok e.snd
  | none => .error (.keyError ("'" ++ k ++ "'"))

/-- `d[k] = v` on an association list: replace the first binding of `k`,
or append a fresh binding. -/
def dictSet (es : List (String × Value)) (k : String) (v : Value) :
    List (String × Value) :=
  if dictHas es k then
    es.map (fun e => if e.fst == k then (e.fst, v) else e)
  else es ++ [(k, v)]

/-- Substring test: Python's `needle in haystack` on strings. -/
def containsSub (needle hay : String) : Bool :=
  decide (needle.toList <:+: hay.toList)

/-- One match attempt of the regex `\[['"](.*?)['"]\]` at the head of the
character stream: an opening bracket, a quote, a non-greedy body ended by
the earliest quote that is immediately followed by a closing bracket.
Returns the captured body and the remaining stream. -/
def bracketMatchAt : List Char → Option (String × List Char)
  | '[' :: q :: rest =>
    if q = '\'' || q = '"' then bracketBody rest [] else none
  | _ => none
where
  /-- Scan for the earliest closing `quote ]`, accumulating the body. -/
  bracketBody : List Char → List Char → Option (String × List Char)
    | [], _ => none
    | c :: rest, acc =>
      if c = '\'' || c = '"' then
        match rest with
        | ']' :: rest2 => some (String.mk acc.reverse, rest2)
        | _ => bracketBody rest (c :: acc)
      else bracketBody rest (c :: acc)

/-- Fuel-driven scan of the whole stream, collecting successive
non-overlapping matches left to right (fuel is the stream length). -/
def findallBracketsAux : Nat → List Char → List String
  | 0, _ => []
  | _, [] => []
  | fuel + 1, c :: rest =>
    match bracketMatchAt (c :: rest) with
    | some (s, rest2) => s :: findallBracketsAux fuel rest2
    | none => findallBracketsAux fuel rest

/-- `re.findall(r"\[['\"](.*?)['\"]\]", s)`: every quoted index key
occurring in `s`, in order. -/
def findallBrackets (s : String) : List String :=
  findallBracketsAux s.toList.length s.toList

/-- `re.search(r"^List\[(\w+)\]$", t)`: when `t` has the exact shape
`List[w]` for a non-empty word `w`, return `w`. -/
def listTypeInner (t : String) : Option String :=
  match t.toList with
  | 'L' :: 'i' :: 's' :: 't' :: '[' :: rest =>
    match rest.getLast? with
    | some ']' =>
      let inner := rest.dropLast
      if !inner.isEmpty && inner.all (fun c => c.isAlphanum || c = '_')
      then some (String.mk inner) else none
    | _ => none
  | _ => none

/-- `location_in_dict` from `utils.py`: renders an address tuple as
`user['a']['b']`. -/
def location_in_dict (address : List String) : String :=
  address.foldl (fun x y => x ++ "['" ++ y ++ "']") "user"

/-- `allowed_scalar_types` from `utils.py`. -/
def allowed_scalar_types : List String := ["str", "int", "float", "complex", "bool"]

/-- `allowed_list_types` from `utils.py`. -/
def allowed_list_types : List String :=
  allowed_scalar_types.map (fun t => "List[" ++ t ++ "]")

/-- `allowed_types` from `utils.py`: the closed set of declarable types. -/
def allowed_types : List String := allowed_scalar_types ++ allowed_list_types

/-- `_type_check_scalar` from `utils.py`: exact runtime type-name match. -/
def type_check_scalar (value : Value) (expected : String) : Bool :=
  pyTypeName value == expected

/-- `_type_check_list` from `utils.py`: the value is a `list` and every
element scalar-matches the element type. -/
def type_check_list (value : Value) (expected : String) : Bool :=
  match value with
  | .vlist xs => xs.all (fun x => type_check_scalar x expected)
  | _ => false

/-- `type_matches` from `utils.py`: raises `ValueError` on a declared type
outside `allowed_types`, otherwise dispatches on the `List[...]` shape. -/
def type_matches (value : Value) (expected_type : String) : Except PyExc Bool :=
  if !(allowed_types.contains expected_type) then
    .error (.valueError ("could not recognize expected_type: " ++ expected_type))
  else
    match listTypeInner expected_type with
    | some inner => .ok (type_check_list value inner)
    | none => .ok (type_check_scalar value expected_type)

/-- Parse an optionally signed run of digits (`int("...")` after
stripping surrounding whitespace); `none` models `ValueError`. -/
def parseIntChars : List Char → Option Int
  | [] => none
  | '-' :: rest =>
    if !rest.isEmpty && rest.all Char.isDigit
    then some (-(digitsToNat rest : Int)) else none
  | '+' :: rest =>
    if !rest.isEmpty && rest.all Char.isDigit
    then some (digitsToNat rest : Int) else none
  | cs =>
    if cs.all Char.isDigit then some (digitsToNat cs : Int) else none

/-- Parse an optionally signed decimal literal `ddd` or `ddd.ddd`
(`float("...")` restricted to plain decimals); `none` models
`ValueError`. -/
def parseFloatChars (cs : List Char) : Option PyRat :=
  let signed : List Char × Bool :=
    match cs with
    | '-' :: rest => (rest, true)
    | '+' :: rest => (rest, false)
    | rest => (rest, false)
  let body := signed.fst
  let parts := body.splitOn '.'
  let value : Option PyRat :=
    match parts with
    | [whole] =>
      if !whole.isEmpty && whole.all Char.isDigit
      then some (PyRat.ofInt (digitsToNat whole : Int)) else none
    | [whole, frac] =>
      if (!whole.isEmpty || !frac.isEmpty) && whole.all Char.isDigit &&
          frac.all Char.isDigit
      then some ⟨(digitsToNat whole : Int) * ((10 : Int) ^ frac.length) +
                  (digitsToNat frac : Int), (10 : Int) ^ frac.length⟩
      else none
    | _ => none
  match value with
  | some v => some (if signed.snd then ⟨-v.num, v.den⟩ else v)
  | none => none

/-- Parse Python's `complex("...")` argument: `a`, `bj` or `a±bj`, with no
embedded whitespace (surrounding whitespace has already been stripped by
the callers modelled here); `none` models `ValueError`. -/
def parseComplexChars (cs : List Char) : Option (PyRat × PyRat) :=
  if cs.contains ' ' then none
  else if cs.getLast? = some 'j' || cs.getLast? = some 'J' then
    let body := cs.dropLast
    -- split at the last top-level sign that separates real and imaginary
    let idx := (List.range body.length).reverse.find? (fun i =>
      0 < i && (body.getD i ' ' = '+' || body.getD i ' ' = '-') &&
        !(body.getD (i - 1) ' ' = 'e' || body.getD (i - 1) ' ' = 'E'))
    match idx with
    | some i =>
      let realPart := body.take i
      let imagPart := body.drop i
      match parseFloatChars realPart, parseFloatChars imagPart with
      | some re, some im => some (re, im)
      | _, _ =>
        match parseFloatChars realPart, imagPart with
        | some re, ['+'] => some (re, PyRat.ofInt 1)
        | some re, ['-'] => some (re, PyRat.ofInt (-1))
        | _, _ => none
    | none =>
      match parseFloatChars body with
      | some im => some (PyRat.ofInt 0, im)
      | none => if body = [] then some (PyRat.ofInt 0, PyRat.ofInt 1)
                else if body = ['-'] then some (PyRat.ofInt 0, PyRat.ofInt (-1))
                else none
  else
    match parseFloatChars cs with
    | some re => some (re, PyRat.ofInt 0)
    | none => none

/-- `bool(x)`: Python truthiness; never raises. -/
def pyBoolFn (v : Value) : Except PyExc Value := .ok (.vbool (pyTruthy v))

/-- `int(x)`: identity on ints, truncation on floats, 0/1 on bools,
decimal parse on strings (`ValueError` on failure), `TypeError`
otherwise. -/
def pyIntFn : Value → Except PyExc Value
  | .vint n => .ok (.vint n)
  | .vbool b => .ok (.vint (if b then 1 else 0))
  | .vfloat q => .ok (.vint q.trunc)
  | .vstr s =>
    match parseIntChars (pyStrip s).toList with
    | some n => .ok (.vint n)
    | none =>
      .error (.valueError ("invalid literal for int() with base 10: '" ++ s ++ "'"))
  | .vcomplex _ _ => .error (.typeError "can't convert complex to int")
  | v => .error (.typeError ("int() argument must be a string, a bytes-like object or a real number, not '" ++ pyTypeName v ++ "'"))

/-- `float(x)`. -/
def pyFloatFn : Value → Except PyExc Value
  | .vfloat q => .ok (.vfloat q)
  | .vint n => .ok (.vfloat (PyRat.ofInt n))
  | .vbool b => .ok (.vfloat (PyRat.ofInt (if b then 1 else 0)))
  | .vstr s =>
    match parseFloatChars (pyStrip s).toList with
    | some q => .ok (.vfloat q)
    | none => .error (.valueError ("could not convert string to float: '" ++ s ++ "'"))
  | .vcomplex _ _ => .error (.typeError "can't convert complex to float")
  | v => .error (.typeError ("float() argument must be a string or a real number, not '" ++ pyTypeName v ++ "'"))

/-- `complex(x)`. -/
def pyComplexFn : Value → Except PyExc Value
  | .vcomplex re im => .ok (.vcomplex re im)
  | .vint n => .ok (.vcomplex (PyRat.ofInt n) (PyRat.ofInt 0))
  | .vfloat q => .ok (.vcomplex q (PyRat.ofInt 0))
  | .vbool b => .ok (.vcomplex (PyRat.ofInt (if b then 1 else 0)) (PyRat.ofInt 0))
  | .vstr s =>
    match parseComplexChars (pyStrip s).toList with
    | some p => .ok (.vcomplex p.fst p.snd)
    | none => .error (.valueError "complex() arg is a malformed string")
  | v => .error (.typeError ("complex() first argument must be a string or a number, not '" ++ pyTypeName v ++ "'"))

/-- A minimal `repr`-style rendering used by `str(x)` on non-strings.
Python's exact float formatting is not modelled (no claim evaluates it);
the cases the engine can actually reach on type-matched values are
faithful. -/
def pyReprLite : Value → String
  | .vnull => "None"
  | .vbool b => if b then "True" else "False"
  | .vint n => toString n
  | .vfloat q => toString q.num ++ "/" ++ toString q.den
  | .vcomplex _ _ => "<complex>"
  | .vstr s => s
  | .vlist _ => "<list>"
  | .vdict _ => "<dict>"

/-- `str(x)`: never raises. -/
def pyStrFn (v : Value) : Except PyExc Value := .ok (.vstr (pyReprLite v))

/-- Python iteration for `map(f, x)`: lists yield elements, strings yield
one-character strings, dicts yield their keys; everything else raises
`TypeError`. -/
def pyIterate : Value → Except PyExc (List Value)
  | .vlist xs => .ok xs
  | .vstr s => .ok (s.toList.map (fun c => .vstr (String.mk [c])))
  | .vdict es => .ok ((dictKeys es).map .vstr)
  | v => .error (.typeError ("'" ++ pyTypeName v ++ "' object is not iterable"))

/-- `list(map(f, x))`: map a scalar fixer over an iterable, failing on the
first element failure. -/
def pyMapList (f : Value → Except PyExc Value) (v : Value) :
    Except PyExc Value := do
  let xs ← pyIterate v
  let ys ← xs.mapM f
  .ok (.vlist ys)

/-- The `type_fixers` dictionary from `utils.py`: type name to coercion.
Looking up an unknown type name raises `KeyError`, as Python dict
indexing does. -/
def type_fixers (t : String) (v : Value) : Except PyExc Value :=
  match t with
  | "bool" => pyBoolFn v
  | "int" => pyIntFn v
  | "float" => pyFloatFn v
  | "complex" => pyComplexFn v
  | "str" => pyStrFn v
  | "List[bool]" => pyMapList pyBoolFn v
  | "List[int]" => pyMapList pyIntFn v
  | "List[float]" => pyMapList pyFloatFn v
  | "List[complex]" => pyMapList pyComplexFn v
  | "List[str]" => pyMapList pyStrFn v
  | _ => .error (.keyError ("'" ++ t ++ "'"))

mutual
/-- Structural equality in the style of Python `==`: numeric values
compare by value across `bool`/`int`/`float`/`complex`, strings compare
as strings, lists pairwise, dicts as key-value maps.  Recursion is on the
first argument. -/
def pyEq : Value → Value → Bool
  | .vnull, b => match b with | .vnull => true | _ => false
  | .vbool x, b => pyNumEq (PyRat.ofInt (if x then 1 else 0)) (PyRat.ofInt 0) b
  | .vint n, b => pyNumEq (PyRat.ofInt n) (PyRat.ofInt 0) b
  | .vfloat q, b => pyNumEq q (PyRat.ofInt 0) b
  | .vcomplex re im, b => pyNumEq re im b
  | .vstr s, b => match b with | .vstr t => s == t | _ => false
  | .vlist xs, b => match b with | .vlist ys => pyEqList xs ys | _ => false
  | .vdict es, b =>
    match b with
    | .vdict fs => es.length == fs.length && pyEqEntries es fs
    | _ => false

def pyNumEq (re im : PyRat) : Value → Bool
  | .vbool y => im.isZero && re.beq (PyRat.ofInt (if y then 1 else 0))
  | .vint m => im.isZero && re.beq (PyRat.ofInt m)
  | .vfloat p => im.isZero && re.beq p
  | .vcomplex re2 im2 => re.beq re2 && im.beq im2
  | _ => false

def pyEqList : List Value → List Value → Bool
  | [], ys => ys.isEmpty
  | x :: xs, ys =>
    match ys with
    | [] => false
    | y :: ys2 => pyEq x y && pyEqList xs ys2

def pyEqEntries : List (String × Value) → List (String × Value) → Bool
  | [], _ => true
  | e :: rest, fs =>
    (match fs.find? (fun f => f.fst == e.fst) with
     | some f => pyEq e.snd f.snd
     | none => false) && pyEqEntries rest fs
end

/-- Binary operators of the modelled expression language. -/
inductive PyBinOp where
  | add | sub | mul | div | mod | lt | le | gt | ge | eq | ne
deriving Repr, DecidableEq

/-- Modelled from the spec: the abstract syntax of default/predicate
expressions.  §6 of the spec describes the expression syntax as the host
language's, evaluated with the single bound name `user`, and sanctions
reproducing it as "a restricted expression-AST evaluator supporting
indexing, arithmetic, comparisons, boolean connectives". -/
inductive PyExpr where
  | lit (v : Value) : PyExpr
  | user : PyExpr
  | name (s : String) : PyExpr
  | index (e : PyExpr) (k : PyExpr) : PyExpr
  | binop (op : PyBinOp) (a b : PyExpr) : PyExpr

/-- Numeric reading of a value (`bool` and `int` as exact integers). -/
def toIntNum : Value → Option Int
  | .vbool b => some (if b then 1 else 0)
  | .vint n => some n
  | _ => none

/-- Numeric reading of a value as a rational (real numbers only). -/
def toRatNum : Value → Option PyRat
  | .vbool b => some (PyRat.ofInt (if b then 1 else 0))
  | .vint n => some (PyRat.ofInt n)
  | .vfloat q => some q
  | _ => none

/-- Rendering of a binary operator for `TypeError` messages. -/
def PyBinOp.symbol : PyBinOp → String
  | .add => "+"
  | .sub => "-"
  | .mul => "*"
  | .div => "/"
  | .mod => "%"
  | .lt => "<"
  | .le => "<="
  | .gt => ">"
  | .ge => ">="
  | .eq => "=="
  | .ne => "!="

/-- The `TypeError` raised by an unsupported arithmetic operand pair. -/
def binOpTypeError (op : PyBinOp) (a b : Value) : PyExc :=
  .typeError ("unsupported operand type(s) for " ++ op.symbol ++ ": '" ++
    pyTypeName a ++ "' and '" ++ pyTypeName b ++ "'")

/-- The `TypeError` raised by an unsupported comparison operand pair. -/
def cmpTypeError (op : PyBinOp) (a b : Value) : PyExc :=
  .typeError ("'" ++ op.symbol ++ "' not supported between instances of '" ++
    pyTypeName a ++ "' and '" ++ pyTypeName b ++ "'")

/-- Evaluate one arithmetic/comparison operator with Python semantics on
the modelled values: `int op int` stays `int` (except true division),
any `float` operand promotes to `float`, `+` concatenates strings and
lists, division and modulo by zero raise `ZeroDivisionError`, order
comparisons on mixed non-numeric types raise `TypeError`, and equality
never raises. -/
def evalBinOp (op : PyBinOp) (a b : Value) : Except PyExc Value :=
  match op with
  | .eq => .ok (.vbool (pyEq a b))
  | .ne => .ok (.vbool (!pyEq a b))
  | .add =>
    match a, b with
    | .vstr s, .vstr t => .ok (.vstr (s ++ t))
    | .vstr _, _ => .error (.typeError ("can only concatenate str (not \"" ++ pyTypeName b ++ "\") to str"))
    | .vlist xs, .vlist ys => .ok (.vlist (xs ++ ys))
    | _, _ =>
      match toIntNum a, toIntNum b with
      | some x, some y => .ok (.vint (x + y))
      | _, _ =>
        match toRatNum a, toRatNum b with
        | some x, some y => .ok (.vfloat (x.add y))
        | _, _ => .error (binOpTypeError op a b)
  | .sub =>
    match toIntNum a, toIntNum b with
    | some x, some y => .ok (.vint (x - y))
    | _, _ =>
      match toRatNum a, toRatNum b with
      | some x, some y => .ok (.vfloat (x.sub y))
      | _, _ => .error (binOpTypeError op a b)
  | .mul =>
    match toIntNum a, toIntNum b with
    | some x, some y => .ok (.vint (x * y))
    | _, _ =>
      match toRatNum a, toRatNum b with
      | some x, some y => .ok (.vfloat (x.mul y))
      | _, _ => .error (binOpTypeError op a b)
  | .div =>
    match toRatNum a, toRatNum b with
    | some x, some y =>
      if y.isZero then .error (.zeroDivisionError "division by zero")
      else .ok (.vfloat (x.div y))
    | _, _ => .error (binOpTypeError op a b)
  | .mod =>
    match toIntNum a, toIntNum b with
    | some x, some y =>
      if y == 0 then .error (.zeroDivisionError "integer division or modulo by zero")
      else .ok (.vint (Int.fmod x y))
    | _, _ =>
      match toRatNum a, toRatNum b with
      | some x, some y =>
        if y.isZero then .error (.zeroDivisionError "float modulo")
        else .ok (.vfloat (x.sub (y.mul (PyRat.ofInt ((x.div y).floor)))))
      | _, _ => .error (binOpTypeError op a b)
  | .lt =>
    match a, b with
    | .vstr s, .vstr t => .ok (.vbool (decide (s < t)))
    | _, _ =>
      match toRatNum a, toRatNum b with
      | some x, some y => .ok (.vbool (x.blt y))
      | _, _ => .error (cmpTypeError op a b)
  | .le =>
    match a, b with
    | .vstr s, .vstr t => .ok (.vbool (decide (s ≤ t)))
    | _, _ =>
      match toRatNum a, toRatNum b with
      | some x, some y => .ok (.vbool (x.ble y))
      | _, _ => .error (cmpTypeError op a b)
  | .gt =>
    match a, b with
    | .vstr s, .vstr t => .ok (.vbool (decide (t < s)))
    | _, _ =>
      match toRatNum a, toRatNum b with
      | some x, some y => .ok (.vbool (y.blt x))
      | _, _ => .error (cmpTypeError op a b)
  | .ge =>
    match a, b with
    | .vstr s, .vstr t => .ok (.vbool (decide (t ≤ s)))
    | _, _ =>
      match toRatNum a, toRatNum b with
      | some x, some y => .ok (.vbool (y.ble x))
      | _, _ => .error (cmpTypeError op a b)

/-- Python indexing `v[k]`: dict lookup with `KeyError` on a missing key,
list indexing with `IndexError` out of bounds, `TypeError` elsewhere. -/
def evalIndex (v k : Value) : Except PyExc Value :=
  match v with
  | .vdict es =>
    match k with
    | .vstr s => dictGetExc es s
    | _ => .error (.keyError (pyReprLite k))
  | .vlist xs =>
    match toIntNum k with
    | some n =>
      let i := if n < 0 then n + xs.length else n
      if h : 0 ≤ i ∧ i.toNat < xs.length then .ok (xs.get ⟨i.toNat, h.2⟩)
      else .error (.indexError "list index out of range")
    | none => .error (.typeError ("list indices must be integers or slices, not " ++ pyTypeName k))
  | _ => .error (.typeError ("'" ++ pyTypeName v ++ "' object is not subscriptable"))

/-- Modelled from the spec: evaluation of a default/predicate expression
against the result tree bound to the single name `user` (§6).  Unbound
names raise `NameError`, exactly as in the host evaluator. -/
def pyEval (userVal : Value) : PyExpr → Except PyExc Value
  | .lit v => .ok v
  | .user => .ok userVal
  | .name s => .error (.nameError ("name '" ++ s ++ "' is not defined"))
  | .index e k => do
    let v ← pyEval userVal e
    let kv ← pyEval userVal k
    evalIndex v kv
  | .binop op a b => do
    let x ← pyEval userVal a
    let y ← pyEval userVal b
    evalBinOp op x y

/-- Tokens of the modelled expression syntax. -/
inductive Tok where
  | tint (n : Nat) : Tok
  | tstr (s : String) : Tok
  | tident (s : String) : Tok
  | tlbrack : Tok
  | trbrack : Tok
  | top (s : String) : Tok
deriving Repr, DecidableEq

/-- Tokenizer for the modelled expression syntax: integers, quoted
strings, identifiers, brackets and the operator symbols.  Any other
character is a syntax error (`none`). -/
def tokenize : Nat → List Char → Option (List Tok)
  | 0, _ => none
  | _, [] => some []
  | fuel + 1, c :: rest =>
    if c = ' ' then tokenize fuel rest
    else if c.isDigit then
      let digits := (c :: rest).takeWhile Char.isDigit
      let remaining := (c :: rest).dropWhile Char.isDigit
      match tokenize fuel remaining with
      | some ts => some (.tint (digitsToNat digits) :: ts)
      | none => none
    else if c = '\'' || c = '"' then
      let body := rest.takeWhile (fun d => d ≠ c)
      match rest.dropWhile (fun d => d ≠ c) with
      | _ :: rest2 =>
        match tokenize fuel rest2 with
        | some ts => some (.tstr (String.mk body) :: ts)
        | none => none
      | [] => none
    else if c.isAlpha || c = '_' then
      let body := (c :: rest).takeWhile (fun d => d.isAlphanum || d = '_')
      let remaining := (c :: rest).dropWhile (fun d => d.isAlphanum || d = '_')
      match tokenize fuel remaining with
      | some ts => some (.tident (String.mk body) :: ts)
      | none => none
    else if c = '[' then
      match tokenize fuel rest with
      | some ts => some (.tlbrack :: ts)
      | none => none
    else if c = ']' then
      match tokenize fuel rest with
      | some ts => some (.trbrack :: ts)
      | none => none
    else if c = '<' || c = '>' || c = '=' || c = '!' then
      match rest with
      | '=' :: rest2 =>
        match tokenize fuel rest2 with
        | some ts => some (.top (String.mk [c, '=']) :: ts)
        | none => none
      | _ =>
        if c = '<' || c = '>' then
          match tokenize fuel rest with
          | some ts => some (.top (String.mk [c]) :: ts)
          | none => none
        else none
    else if c = '+' || c = '-' || c = '*' || c = '/' || c = '%' then
      match tokenize fuel rest with
      | some ts => some (.top (String.mk [c]) :: ts)
      | none => none
    else none

/-- Zero or more literal index suffixes `['key']` / `[3]` after an atom
(the modelled grammar restricts index keys to literals). -/
def parseIndexSuffixes : Nat → PyExpr → List Tok → PyExpr × List Tok
  | 0, a, ts => (a, ts)
  | fuel + 1, a, ts =>
    match ts with
    | .tlbrack :: .tstr s :: .trbrack :: rest =>
      parseIndexSuffixes fuel (.index a (.lit (.vstr s))) rest
    | .tlbrack :: .tint n :: .trbrack :: rest =>
      parseIndexSuffixes fuel (.index a (.lit (.vint n))) rest
    | _ => (a, ts)

/-- One atom: an integer or string literal or an identifier (`user`, the
boolean/`None` constants, or an unbound name). -/
def parseAtom : List Tok → Option (PyExpr × List Tok)
  | .tint n :: rest => some (.lit (.vint n), rest)
  | .tstr s :: rest => some (.lit (.vstr s), rest)
  | .tident s :: rest =>
    let atom : PyExpr :=
      if s = "user" then .user
      else if s = "True" then .lit (.vbool true)
      else if s = "False" then .lit (.vbool false)
      else if s = "None" then .lit .vnull
      else .name s
    some (atom, rest)
  | _ => none

/-- An atom followed by its index suffixes. -/
def parseAtomChain (ts : List Tok) : Option (PyExpr × List Tok) :=
  match parseAtom ts with
  | some p => some (parseIndexSuffixes ts.length p.fst p.snd)
  | none => none

/-- The flat operator/operand sequence of an expression: the first
operand and the list of `(operator, operand)` continuations. -/
def parsePairs : Nat → List Tok → Option (PyExpr × List (String × PyExpr) × List Tok)
  | 0, _ => none
  | fuel + 1, ts =>
    match parseAtomChain ts with
    | none => none
    | some (a, rest) =>
      match rest with
      | .top o :: rest2 =>
        match parsePairs fuel rest2 with
        | some (b, pairs, rest3) => some (a, (o, b) :: pairs, rest3)
        | none => none
      | _ => some (a, [], rest)

/-- Operator symbol to AST operator. -/
def strToOp (o : String) : PyBinOp :=
  if o = "+" then .add else if o = "-" then .sub
  else if o = "*" then .mul else if o = "/" then .div
  else if o = "%" then .mod else if o = "<" then .lt
  else if o = "<=" then .le else if o = ">" then .gt
  else if o = ">=" then .ge else if o = "==" then .eq else .ne

/-- Merge all operators of one (left-associative) precedence group in an
operand/operator sequence, leaving lower-precedence operators in place. -/
def mergeOps (ops : List String) : PyExpr → List (String × PyExpr) →
    PyExpr × List (String × PyExpr)
  | cur, [] => (cur, [])
  | cur, (o, e) :: rest =>
    if ops.contains o then mergeOps ops (.binop (strToOp o) cur e) rest
    else
      let merged := mergeOps ops e rest
      (cur, (o, merged.fst) :: merged.snd)

/-- Assemble an expression from the operand/operator sequence by
precedence: multiplicative, then additive, then one (non-chained)
comparison. -/
def buildExpr (a : PyExpr) (pairs : List (String × PyExpr)) : Option PyExpr :=
  let m1 := mergeOps ["*", "/", "%"] a pairs
  let m2 := mergeOps ["+", "-"] m1.fst m1.snd
  match m2.snd with
  | [] => some m2.fst
  | [(o, b)] =>
    if o = "<" || o = "<=" || o = ">" || o = ">=" || o = "==" || o = "!=" then
      some (.binop (strToOp o) m2.fst b)
    else none
  | _ => none

/-- Modelled from the spec: parsing of a default/predicate expression
string into the restricted AST of §6/§9.  `none` models the
`SyntaxError` raised when `eval` compiles a malformed expression. -/
def parsePyExpr (s : String) : Option PyExpr :=
  match tokenize (s.length + 1) s.toList with
  | none => none
  | some ts =>
    match parsePairs (ts.length + 1) ts with
    | some (a, pairs, []) => buildExpr a pairs
    | _ => none

/-- Modelled from the spec: `eval("lambda user: " + f)(d)` — compile the
expression string (a `SyntaxError` if malformed) and evaluate it with the
tree `d` bound to the name `user` (§6). -/
def evalClosure (f : String) (d : Value) : Except PyExc Value :=
  match parsePyExpr f with
  | none => .error (.syntaxError "invalid syntax (<string>, line 1)")
  | some e => pyEval d e

/-- A schema keyword (leaf) as read from the template document: the
`name`, `type`, `docstring`, `default` and `predicates` keys, each
optional except the name; `hasSections` records whether the forbidden
`sections` key is present under the keyword. -/
structure Keyword where
  name : String
  type : Option String := none
  docstring : Option String := none
  default : Option Value := none
  predicates : Option (List String) := none
  hasSections : Bool := false

/-- A template node: the root or a section, with its `name` (unused at
the root), optional `docstring`, `keywords` and sub-`sections`.  A node
without a `keywords` (resp. `sections`) key is modelled by the empty
list, matching the `if "keywords" in template.keys() else []` reads. -/
inductive Template where
  | mk (name : String) (docstring : Option String) (keywords : List Keyword)
      (sections : List Template) : Template

/-- The `name` of a template node. -/
def Template.name : Template → String
  | .mk n _ _ _ => n

/-- The `docstring` of a template node. -/
def Template.docstring : Template → Option String
  | .mk _ d _ _ => d

/-- The `keywords` of a template node. -/
def Template.keywords : Template → List Keyword
  | .mk _ _ k _ => k

/-- The `sections` of a template node. -/
def Template.sections : Template → List Template
  | .mk _ _ _ s => s

mutual
/-- `view_by("default", d)` from `views.py`: every keyword maps to its
default (`None` when absent), every section recurses, keywords first in
insertion order. -/
def view_by_default : Template → Value
  | .mk _ _ kws secs =>
    .vdict (kws.map (fun k => (k.name, k.default.getD .vnull)) ++
            view_by_default_sections secs)

def view_by_default_sections : List Template → List (String × Value)
  | [] => []
  | s :: rest => (s.name, view_by_default s) :: view_by_default_sections rest
end

mutual
/-- `view_by("type", d)` from `views.py`: every keyword maps to its
declared type string.  A missing type maps to the `SpecificationError`
sentinel; the sentinel string is not an allowed type, so downstream
`type_matches` raises on it exactly as it would on the Python class
object. -/
def view_by_type : Template → Value
  | .mk _ _ kws secs =>
    .vdict (kws.map (fun k => (k.name,
              match k.type with
              | some t => Value.vstr t
              | none => Value.vstr "SpecificationError")) ++
            view_by_type_sections secs)

def view_by_type_sections : List Template → List (String × Value)
  | [] => []
  | s :: rest => (s.name, view_by_type s) :: view_by_type_sections rest
end

mutual
/-- `view_by("predicates", d)` from `views.py`: every keyword maps to its
predicate list (`None` when absent), every section recurses. -/
def view_by_predicates : Template → Value
  | .mk _ _ kws secs =>
    .vdict (kws.map (fun k => (k.name,
              match k.predicates with
              | some ps => Value.vlist (ps.map Value.vstr)
              | none => Value.vnull)) ++
            view_by_predicates_sections secs)

def view_by_predicates_sections : List Template → List (String × Value)
  | [] => []
  | s :: rest => (s.name, view_by_predicates s) :: view_by_predicates_sections rest
end

/-- Modelled from the spec: `view_by_default_keywords` (referenced from
`check_template.py` but absent from the source tree) — the keyword-level
part of the defaults view for a flat keyword list (§4.2: for every field
the view holds the `default` attribute, with `None` as the missing
sentinel). -/
def view_by_default_keywords (kws : List Keyword) : Value :=
  .vdict (kws.map (fun k => (k.name, k.default.getD .vnull)))

/-- The engine's error value: an address into the tree plus a message. -/
structure Error where
  address : List String := []
  message : String := ""
deriving Repr, DecidableEq

/-- `_undocumented` from `check_template.py`, on keywords. -/
def undocumentedKw (k : Keyword) : Bool :=
  match k.docstring with
  | none => true
  | some d => pyStrip d == ""

/-- `_undocumented` from `check_template.py`, on sections. -/
def undocumentedSec (t : Template) : Bool :=
  match t.docstring with
  | none => true
  | some d => pyStrip d == ""

/-- `_untyped` from `check_template.py`. -/
def untypedKw (k : Keyword) : Bool :=
  match k.type with
  | none => true
  | some t => !(allowed_types.contains t)

/-- `_check_keyword` from `check_template.py`: sections under keywords,
invalid type, empty docstring — all collected, in that order. -/
def check_keyword (keyword : Keyword) (address : List String) : List Error :=
  (if keyword.hasSections then
    [⟨address ++ [keyword.name], "Sections cannot be nested under keywords."⟩]
   else []) ++
  (if untypedKw keyword then
    [⟨address ++ [keyword.name], "Keywords must have a valid type."⟩]
   else []) ++
  (if undocumentedKw keyword then
    [⟨address ++ [keyword.name], "Keywords must have a non-empty docstring."⟩]
   else [])

mutual
/-- `_rec_is_template_valid` from `check_template.py`: collect every
malformedness error over the whole template tree. -/
def rec_is_template_valid : Template → List String → List Error
  | .mk _ _ kws secs, address =>
    kws.flatMap (fun k => check_keyword k address) ++
    rec_is_template_valid_sections secs address

def rec_is_template_valid_sections : List Template → List String → List Error
  | [], _ => []
  | s :: rest, address =>
    (if undocumentedSec s then
      [⟨address ++ [s.name], "Sections must have a non-empty docstring."⟩]
     else []) ++
    rec_is_template_valid s (address ++ [s.name]) ++
    rec_is_template_valid_sections rest address
end

/-- `_keywords_default_dependencies` from `check_template.py`: a keyword
whose default is a string containing `"user"` depends on the tuple of all
bracket-quoted keys found in it. -/
def keywords_default_dependencies (keyword : String) (default : Value)
    (parents : List String) : List (List String × List String) :=
  match default with
  | .vstr s =>
    if containsSub "user" s then
      let toKeys := findallBrackets s
      if toKeys.length > 0 then [(parents ++ [keyword], toKeys)] else []
    else []
  | _ => []

mutual
/-- `_sections_default_dependencies` from `check_template.py`: collect
`(keyword address, referenced keys)` pairs over a defaults view. -/
def sections_default_dependencies : Value → List String → List (List String × List String)
  | .vdict es, parents => sections_default_dependencies_entries es parents
  | _, _ => []

def sections_default_dependencies_entries :
    List (String × Value) → List String → List (List String × List String)
  | [], _ => []
  | (k, v) :: rest, parents =>
    sections_default_dependencies_value k v parents ++
    sections_default_dependencies_entries rest parents

/-- One `(k, v)` step of the dependency scan: recurse into a sub-section,
otherwise read the keyword's default. -/
def sections_default_dependencies_value (k : String) (v : Value)
    (parents : List String) : List (List String × List String) :=
  match v with
  | .vdict es => sections_default_dependencies_entries es (parents ++ [k])
  | other => keywords_default_dependencies k other parents
end

/-- A node of the dependency graph: a tuple of keys. -/
abbrev GNode := List String

/-- Add a node to the insertion-ordered node list if absent. -/
def addNode (acc : List GNode) (n : GNode) : List GNode :=
  if acc.contains n then acc else acc ++ [n]

/-- The nodes of `networkx.DiGraph(edges)` in insertion order: for each
edge, the source then the target, first appearance kept. -/
def graphNodes (edges : List (GNode × GNode)) : List GNode :=
  edges.foldl (fun acc e => addNode (addNode acc e.fst) e.snd) []

/-- Edge membership of the dependency graph. -/
def hasEdge (edges : List (GNode × GNode)) (u v : GNode) : Bool :=
  edges.any (fun e => e.fst == u && e.snd == v)

/-- Consecutive-pair adjacency along a path. -/
def chainAdj (edges : List (GNode × GNode)) : List GNode → Bool
  | [] => true
  | [_] => true
  | u :: v :: rest => hasEdge edges u v && chainAdj edges (v :: rest)

/-- Whether a non-empty node list is a closed walk (consecutive edges
plus the wrap-around edge). -/
def isCycleChain (edges : List (GNode × GNode)) (c : List GNode) : Bool :=
  match c with
  | [] => false
  | h :: _ => chainAdj edges c && hasEdge edges (c.getLastD h) h

/-- The canonical representative of a rotation class: the head has the
smallest insertion-order index among the cycle's nodes. -/
def isCanonicalCycle (nodes : List GNode) (c : List GNode) : Bool :=
  match c with
  | [] => false
  | h :: _ => c.all (fun x => nodes.indexOf h ≤ nodes.indexOf x)

/-- All ways to insert an element into a list. -/
def insertEverywhere {α : Type} (x : α) : List α → List (List α)
  | [] => [[x]]
  | y :: ys => (x :: y :: ys) :: (insertEverywhere x ys).map (fun zs => y :: zs)

/-- All permutations of a list (structurally recursive). -/
def permsOf {α : Type} : List α → List (List α)
  | [] => [[]]
  | x :: xs => (permsOf xs).flatMap (insertEverywhere x)

/-- All sublists (order-preserving selections) of a list. -/
def sublistsOf {α : Type} : List α → List (List α)
  | [] => [[]]
  | x :: xs => (sublistsOf xs).flatMap (fun s => [s, x :: s])

/-- Modelled from the spec: `networkx.simple_cycles` — enumerate every
simple cycle of the directed graph exactly once (the spec calls for a
"Tarjan/Johnson-style simple-cycle enumeration").  Each cycle is a list
of distinct nodes closed by a wrap-around edge; one canonical rotation
per cycle is kept. -/
def simple_cycles (edges : List (GNode × GNode)) : List (List GNode) :=
  let nodes := graphNodes edges
  ((sublistsOf nodes).flatMap permsOf).filter
    (fun c => !c.isEmpty && decide c.Nodup && isCycleChain edges c &&
              isCanonicalCycle nodes c)

/-- `_check_cyclic_defaults` from `check_template.py`: one error per
simple cycle, addressed at the cycle's first node and naming its second;
the `c[1]` access raises `IndexError` on a length-one cycle. -/
def check_cyclic_defaults (template : Template) : Except PyExc (List Error) :=
  let stencil := view_by_default template
  let dependencies := sections_default_dependencies stencil []
  let cycles := simple_cycles dependencies
  cycles.mapM (fun c =>
    match c with
    | c0 :: c1 :: _ =>
      .ok (⟨c0, "Keyword depends cyclically on keyword " ++ location_in_dict c1⟩ : Error)
    | _ => .error (.indexError "list index out of range"))

/-- Remove the first keyword with the given name from a list, returning
it and the remainder (the effect of the `keywords.remove(x)` loop in
`_rec_reoder_template` for unique names). -/
def removeFirstNamed (n : String) : List Keyword → Option (Keyword × List Keyword)
  | [] => none
  | k :: rest =>
    if k.name == n then some (k, rest)
    else
      match removeFirstNamed n rest with
      | some (x, rest2) => some (x, k :: rest2)
      | none => none

mutual
/-- `_rec_reoder_template` from `check_template.py`: per section, build
the keyword-level dependency graph, take its node names (last tuple
component) in reversed insertion order, and move each so-named keyword to
the back of the keyword list in that order; recurse into sections. -/
def rec_reorder_template : Template → Template
  | .mk n d kws secs =>
    let kwStencil := view_by_default_keywords kws
    let deps := sections_default_dependencies kwStencil []
    let nodes := (graphNodes deps).map (fun x => x.getLastD "")
    let shuffled := nodes.reverse.foldl
      (fun (st : List Keyword × List Keyword) node =>
        match removeFirstNamed node st.fst with
        | some p => (p.snd, st.snd ++ [p.fst])
        | none => st) (kws, [])
    .mk n d (shuffled.fst ++ shuffled.snd) (rec_reorder_sections secs)

def rec_reorder_sections : List Template → List Template
  | [] => []
  | s :: rest => rec_reorder_template s :: rec_reorder_sections rest
end

/-- `_reorder_template` from `check_template.py` (the deep copy is the
identity in a pure setting). -/
def reorder_template (t : Template) : Template := rec_reorder_template t

/-- An engine-level failure: a raised `ParselglossyError` carrying the
collated report, or an uncaught Python exception. -/
inductive Failure where
  | raised (msg : String) : Failure
  | crashed (exc : PyExc) : Failure
deriving Repr, DecidableEq

/-- The `__repr__` of `Error` from `exceptions.py`. -/
def errorRepr (e : Error) : String :=
  "- " ++ (if e.address.isEmpty then e.message
           else "At " ++ location_in_dict e.address ++ ":\n  " ++ e.message)

/-- `collate_errors` from `exceptions.py`: the phase preamble followed by
one line per error. -/
def collate_errors (whenStr : String) (errors : List Error) : String :=
  let plural := if errors.length > 1 then "s" else ""
  "\nError" ++ plural ++ " occurred when " ++ whenStr ++ ":" ++
    String.join (errors.map (fun e => "\n" ++ errorRepr e))

/-- `is_template_valid` from `check_template.py`: collect well-formedness
and cyclic-default errors; raise the collated report if any, otherwise
return the reordered template. -/
def is_template_valid (template : Template) : Except Failure Template :=
  let errors := rec_is_template_valid template []
  match check_cyclic_defaults template with
  | .error exc => .error (.crashed exc)
  | .ok cycErrors =>
    let allErrors := errors ++ cycErrors
    if allErrors.isEmpty then .ok (reorder_template template)
    else .error (.raised (collate_errors "checking the template" allErrors))

/-- The unexpected-key errors of one `_rec_merge_ours` level: each key of
`ours` unknown to `theirs`, classified as a section exactly when its
value is a dict, reported in insertion order (Python iterates a `set`
here, whose order is unspecified; the claims do not depend on it). -/
def unexpected_errors (theirsE oursE : List (String × Value)) : List Error :=
  ((dictKeys oursE).filter (fun k => !(dictHas theirsE k))).map (fun k =>
    let what := if (dictGetD oursE k).isDict then "section" else "keyword"
    (⟨[], "Found unexpected " ++ what ++ ": '" ++ k ++ "'."⟩ : Error))

mutual
/-- The `for k, v in theirs.items()` loop of `_rec_merge_ours` from
`validation_plumbing.py`. -/
def merge_entries (theirsE oursE : List (String × Value))
    (address : List String) :
    Except PyExc (List (String × Value) × List Error) :=
  match theirsE with
  | [] => .ok ([], [])
  | (k, v) :: rest => do
    let head ← merge_one k v oursE address
    let tail ← merge_entries rest oursE address
    .ok (head.fst ++ tail.fst, head.snd ++ tail.snd)

/-- One `(k, v)` step of the `theirs.items()` loop: a key missing from
`ours` takes the non-`None` default or yields a required-keyword error
with a `None` slot; a section present in both recurses (the recursive
call invokes `.keys()` on `ours[k]`, raising `AttributeError` when it is
not a dict); otherwise the user value is taken verbatim. -/
def merge_one (k : String) (v : Value) (oursE : List (String × Value))
    (address : List String) :
    Except PyExc (List (String × Value) × List Error) :=
  if !(dictHas oursE k) then
    match v with
    | .vnull =>
      .ok ([(k, .vnull)],
           [⟨address ++ [k], "Keyword '" ++ k ++ "' is required but has no value."⟩])
    | other => .ok ([(k, other)], [])
  else
    match v with
    | .vdict sub =>
      match dictGetD oursE k with
      | .vdict oursSub => do
        let merged ← merge_entries sub oursSub (address ++ [k])
        .ok ([(k, .vdict merged.fst)],
             unexpected_errors sub oursSub ++ merged.snd)
      | other =>
        .error (.attributeError ("'" ++ pyTypeName other ++ "' object has no attribute 'keys'"))
    | _ => .ok ([(k, dictGetD oursE k)], [])
end

/-- `_rec_merge_ours` from `validation_plumbing.py`: walk the defaults
view `theirs` as the authoritative shape (the per-level body is split
into `unexpected_errors` / `merge_entries` / `merge_one` above for
structural recursion).  `ours` is inspected before `theirs` — as in
`set(ours.keys()).difference(set(theirs.keys()))` — so a non-dict on
either side raises the corresponding `AttributeError`. -/
def rec_merge_ours (theirs ours : Value) (address : List String) :
    Except PyExc (Value × List Error) :=
  match ours with
  | .vdict oursE =>
    match theirs with
    | .vdict theirsE => do
      let merged ← merge_entries theirsE oursE address
      .ok (.vdict merged.fst, unexpected_errors theirsE oursE ++ merged.snd)
    | other =>
      .error (.attributeError ("'" ++ pyTypeName other ++ "' object has no attribute 'keys'"))
  | other =>
    .error (.attributeError ("'" ++ pyTypeName other ++ "' object has no attribute 'keys'"))

/-- Modelled from the spec: `nested_set` (referenced from
`validation_plumbing.py` but absent from the source tree) — write a value
into a nested dict at the given address (§4.5: "write its resolved value
back into the start dictionary at its address").  The addresses used by
the engine always exist in the start dictionary. -/
def nested_set (d : Value) (address : List String) (v : Value) : Value :=
  match d, address with
  | .vdict es, [k] => .vdict (dictSet es k v)
  | .vdict es, k :: rest =>
    .vdict (es.map (fun e =>
      if e.fst == k then (e.fst, nested_set e.snd rest v) else e))
  | other, _ => other

/-- `run_callable` from `validation_plumbing.py` (the revision local to
that module): evaluate the callable string against the tree bound to
`user`, then coerce with `type_fixers[t]`; `KeyError`, `SyntaxError`,
`TypeError` and `NameError` are caught and rendered into a message, any
other exception propagates. -/
def run_callable (f : String) (d : Value) (t : String) :
    Except PyExc (String × Option Value) :=
  let body : Except PyExc Value := do
    let result ← evalClosure f d
    type_fixers t result
  match body with
  | .ok result => .ok ("", some result)
  | .error (.keyError detail) =>
    .ok ("KeyError " ++ detail ++ " in closure '" ++ f ++ "'.", none)
  | .error (.syntaxError detail) =>
    .ok ("SyntaxError " ++ detail ++ " in closure '" ++ f ++ "'.", none)
  | .error (.typeError detail) =>
    .ok ("TypeError " ++ detail ++ " in closure '" ++ f ++ "'.", none)
  | .error (.nameError detail) =>
    .ok ("NameError " ++ detail ++ " in closure '" ++ f ++ "'.", none)
  | .error exc => .error exc

/-- The `actual` type description in the type-mismatch message of
`_rec_fix_defaults`: lists render every element type. -/
def actualTypeName (v : Value) : String :=
  match v with
  | .vlist xs => "List[" ++ String.intercalate ", " (xs.map pyTypeName) ++ "]"
  | other => pyTypeName other

/-- The `types[k]` lookup of `_rec_fix_defaults`: `KeyError` on a missing
key, `TypeError` when the view is not a dict. -/
def types_lookup (types : Value) (k : String) : Except PyExc Value :=
  match types with
  | .vdict tes => dictGetExc tes k
  | other => .error (.typeError ("'" ++ pyTypeName other ++ "' object is not subscriptable"))

/-- Reading the declared type as a string; the non-string sentinel of a
type-less keyword makes `type_matches` raise, observably the same
`ValueError` produced here. -/
def expect_type_str (tVal : Value) : Except PyExc String :=
  match tVal with
  | .vstr t => .ok t
  | _ => .error (.valueError "could not recognize expected_type: SpecificationError")

/-- The branch of `_rec_fix_defaults` for a scalar whose type did not
match: a string containing the reserved token `"user"` is run as a
callable (writing back on success, one error otherwise), anything else
records the type-mismatch error and produces no output slot. -/
def fix_mismatched (k : String) (v : Value) (t : String)
    (start_dict : Value) (address : List String) :
    Except PyExc (List (String × Value) × List Error × Value) :=
  match v with
  | .vstr s =>
    if containsSub "user" s then do
      let ran ← run_callable s start_dict t
      let outV := ran.snd.getD .vnull
      if ran.fst = "" then
        .ok ([(k, outV)], [], nested_set start_dict (address ++ [k]) outV)
      else
        .ok ([(k, outV)], [(⟨address ++ [k], ran.fst⟩ : Error)], start_dict)
    else
      .ok ([], [(⟨address ++ [k],
            "Actual (" ++ actualTypeName v ++ ") and declared (" ++ t ++
            ") types do not match."⟩ : Error)], start_dict)
  | _ =>
    .ok ([], [(⟨address ++ [k],
          "Actual (" ++ actualTypeName v ++ ") and declared (" ++ t ++
          ") types do not match."⟩ : Error)], start_dict)

mutual
/-- The `for k, v in incoming.items()` loop of `_rec_fix_defaults` from
`validation_plumbing.py`.  Returns the outgoing entries, the errors, and
the updated start dictionary. -/
def fix_entries (es : List (String × Value)) (types start_dict : Value)
    (address : List String) :
    Except PyExc (List (String × Value) × List Error × Value) :=
  match es with
  | [] => .ok ([], [], start_dict)
  | (k, v) :: rest => do
    let head ← fix_one k v types start_dict address
    let tail ← fix_entries rest types head.snd.snd address
    .ok (head.fst ++ tail.fst, head.snd.fst ++ tail.snd.fst, tail.snd.snd)

/-- One `(k, v)` step of the `incoming.items()` loop: if the value
already matches the declared type, coerce and accept; else if it is a
string containing the reserved token `"user"`, run it as a callable
against the start dictionary; else record a type-mismatch error (leaving
no slot).  Returns the produced output entries (none on a type
mismatch), the produced errors, and the start dictionary to use for the
following fields — updated exactly when the field resolved without
error, so later defaults read resolved values.  Sections recurse,
threading the same start dictionary. -/
def fix_one (k : String) (v : Value) (types start_dict : Value)
    (address : List String) :
    Except PyExc (List (String × Value) × List Error × Value) :=
  match v with
  | .vdict sub => do
    let tSub ← types_lookup types k
    let fixedSub ← fix_entries sub tSub start_dict (address ++ [k])
    .ok ([(k, .vdict fixedSub.fst)], fixedSub.snd.fst, fixedSub.snd.snd)
  | _ => do
    let tVal ← types_lookup types k
    let t ← expect_type_str tVal
    let typesOk ← type_matches v t
    if typesOk then do
      let fixedV ← type_fixers t v
      .ok ([(k, fixedV)], [], nested_set start_dict (address ++ [k]) fixedV)
    else
      fix_mismatched k v t start_dict address
end

/-- `_rec_fix_defaults` from `validation_plumbing.py` (split into
`fix_entries` / `fix_one` above for structural recursion): fix defaults
and check types over a merged tree, threading the mutable start
dictionary. -/
def rec_fix_defaults (incoming types start_dict : Value)
    (address : List String) :
    Except PyExc (Value × List Error × Value) :=
  match incoming with
  | .vdict es => do
    let fixed ← fix_entries es types start_dict address
    .ok (.vdict fixed.fst, fixed.snd.fst, fixed.snd.snd)
  | other =>
    .error (.attributeError ("'" ++ pyTypeName other ++ "' object has no attribute 'items'"))

/-- `run_predicate` from `validation_plumbing.py`: replace every
occurrence of the placeholder `value` by the field's full reference, then
evaluate against the whole tree; a falsy result yields the
"not satisfied" message, the four caught exception kinds yield a
categorized message quoting the original predicate, anything else
propagates.  The returned flag is the truthiness of the result, which is
all the caller inspects. -/
def run_predicate (predicate whereStr : String) (user : Value) :
    Except PyExc (String × Bool) :=
  let p := replaceSub predicate "value" whereStr
  match evalClosure p user with
  | .ok result =>
    if pyTruthy result then .ok ("", true)
    else .ok ("Predicate '" ++ predicate ++ "' not satisfied.", false)
  | .error (.keyError detail) =>
    .ok ("KeyError " ++ detail ++ " in closure '" ++ predicate ++ "'.", false)
  | .error (.syntaxError detail) =>
    .ok ("SyntaxError " ++ detail ++ " in closure '" ++ predicate ++ "'.", false)
  | .error (.typeError detail) =>
    .ok ("TypeError " ++ detail ++ " in closure '" ++ predicate ++ "'.", false)
  | .error (.nameError detail) =>
    .ok ("NameError " ++ detail ++ " in closure '" ++ predicate ++ "'.", false)
  | .error exc => .error exc

/-- Run the predicates of one keyword, in declaration order. -/
def run_predicates_of (ps : List Value) (k : String)
    (start_dict : Value) (address : List String) :
    Except PyExc (List Error) :=
  match ps with
  | [] => .ok []
  | p :: rest =>
    match p with
    | .vstr pStr => do
      let ran ← run_predicate pStr (location_in_dict (address ++ [k])) start_dict
      let tail ← run_predicates_of rest k start_dict address
      if ran.snd then .ok tail
      else .ok ((⟨address ++ [k], ran.fst⟩ : Error) :: tail)
    | other =>
      .error (.attributeError ("'" ++ pyTypeName other ++ "' object has no attribute 'replace'"))

mutual
/-- `_rec_check_predicates` from `validation_plumbing.py`: for every
keyword with a non-`None` predicate view, evaluate each predicate against
the whole fixed tree, accumulating one error per failure; sections
recurse. -/
def rec_check_predicates (incoming predicates start_dict : Value)
    (address : List String) : Except PyExc (List Error) :=
  match incoming with
  | .vdict es => check_predicates_entries es predicates start_dict address
  | other =>
    .error (.attributeError ("'" ++ pyTypeName other ++ "' object has no attribute 'items'"))

/-- The `for k, v in incoming.items()` loop of `_rec_check_predicates`. -/
def check_predicates_entries (es : List (String × Value))
    (predicates start_dict : Value) (address : List String) :
    Except PyExc (List Error) :=
  match es with
  | [] => .ok []
  | (k, v) :: rest => do
    let pk ← match predicates with
      | .vdict pes => dictGetExc pes k
      | other => Except.error (.typeError ("'" ++ pyTypeName other ++ "' object is not subscriptable"))
    let head ← match pk with
      | .vnull => pure []
      | _ =>
        match v with
        | .vdict _ => rec_check_predicates v pk start_dict (address ++ [k])
        | _ => do
          let ps ← match pk with
            | .vlist ps => pure ps
            | other => Except.error (.typeError ("'" ++ pyTypeName other ++ "' object is not iterable"))
          run_predicates_of ps k start_dict address
    let tail ← check_predicates_entries rest predicates start_dict address
    .ok (head ++ tail)
end

/-- Modelled from the spec: the `merge_ours` porcelain of the validation
module (absent from the source tree; §4.7/§7: each phase aggregates its
own errors into one raised failure, tagged "merging"). -/
def merge_ours (theirs ours : Value) : Except Failure Value :=
  match rec_merge_ours theirs ours [] with
  | .error exc => .error (.crashed exc)
  | .ok merged =>
    if merged.snd.isEmpty then .ok merged.fst
    else .error (.raised (collate_errors "merging" merged.snd))

/-- Modelled from the spec: the `fix_defaults` porcelain (absent from the
source tree; phase tag "fixing defaults", start dictionary initialized to
a deep copy of the merged tree per §4.5). -/
def fix_defaults (incoming types : Value) : Except Failure Value :=
  match rec_fix_defaults incoming types incoming [] with
  | .error exc => .error (.crashed exc)
  | .ok fixed =>
    if fixed.snd.fst.isEmpty then .ok fixed.fst
    else .error (.raised (collate_errors "fixing defaults" fixed.snd.fst))

/-- Modelled from the spec: the `check_predicates` porcelain (absent from
the source tree; phase tag "checking predicates"). -/
def check_predicates (incoming predicates : Value) : Except Failure Unit :=
  match rec_check_predicates incoming predicates incoming [] with
  | .error exc => .error (.crashed exc)
  | .ok errors =>
    if errors.isEmpty then .ok ()
    else .error (.raised (collate_errors "checking predicates" errors))

/-- Modelled from the spec: `validate_from_dicts` (referenced from
`api.py` and the tests but absent from the source tree; §4.7) — build the
views, then merge, fix defaults and check predicates in sequence, each
phase raising its aggregated failure and stopping the pipeline, returning
the fixed tree only on total success. -/
def validate_from_dicts (ir : Value) (template : Template) :
    Except Failure Value := do
  let merged ← merge_ours (view_by_default template) ir
  let fixed ← fix_defaults merged (view_by_type template)
  let _ ← check_predicates fixed (view_by_predicates template)
  .ok fixed

/-- The `validate` orchestration of `api.py`: check the template (which
also reorders it), then run `validate_from_dicts` on the checked
template. -/
def validate (ir : Value) (template : Template) : Except Failure Value := do
  let stencil ← is_template_valid template
  validate_from_dicts ir stencil

/-- Whether a keyword's default expression references the sibling name
`n`, using the same textual extraction as the dependency scan: the
default is a string containing `"user"` and `n` occurs among its
bracket-quoted keys. -/
def refsSibling (k : Keyword) (n : String) : Bool :=
  match k.default with
  | some (.vstr s) => containsSub "user" s && (findallBrackets s).contains n
  | _ => false

/-- The ordering property claimed for reordered sections: no keyword's
default references a sibling keyword occurring later in the list. -/
def NoLaterSiblingRefs (kws : List Keyword) : Prop :=
  ∀ i j : Fin kws.length, i < j →
    refsSibling (kws.get i) ((kws.get j).name) = false

/-- The dependency edge list of a template, as built by
`_check_cyclic_defaults`. -/
def depsOf (template : Template) : List (List String × List String) :=
  sections_default_dependencies (view_by_default template) []

/-- A simple cycle of the dependency graph: a non-empty list of distinct
nodes forming a closed walk. -/
def IsSimpleCycle (edges : List (GNode × GNode)) (c : List GNode) : Prop :=
  c ≠ [] ∧ c.Nodup ∧ isCycleChain edges c = true

/-- The error `_check_cyclic_defaults` builds from one enumerated cycle. -/
def mkCycError (c : List GNode) : Error :=
  ⟨c.headD [], "Keyword depends cyclically on keyword " ++
    location_in_dict (c.getD 1 [])⟩

/-- The message `run_callable`/`run_predicate` produce for a caught
exception, and `none` for exception kinds that are not caught. -/
def caughtMessage (exc : PyExc) (f : String) : Option String :=
  match exc with
  | .keyError detail => some ("KeyError " ++ detail ++ " in closure '" ++ f ++ "'.")
  | .syntaxError detail => some ("SyntaxError " ++ detail ++ " in closure '" ++ f ++ "'.")
  | .typeError detail => some ("TypeError " ++ detail ++ " in closure '" ++ f ++ "'.")
  | .nameError detail => some ("NameError " ++ detail ++ " in closure '" ++ f ++ "'.")
  | _ => none

/-- Fixture for the orchestrator claims: a schema requiring `title` with
no default. -/
def tplTitle : Template :=
  .mk "" none [{ name := "title", type := some "str", docstring := some "title doc" }] []

/-- Fixture for the defaulting claims: the `scf` schema of the spec's
end-to-end scenario, with the dependent default declared first so that
the checker's reordering is exercised. -/
def tplScf : Template :=
  .mk "" none []
    [.mk "scf" (some "SCF section")
      [{ name := "another_number", type := some "int", docstring := some "doc a",
         default := some (.vstr "user['scf']['max_num_iterations'] / 10") },
       { name := "max_num_iterations", type := some "int", docstring := some "doc m",
         default := some (.vint 20) }]
      []]

/-- The Result Tree the spec's end-to-end scenario expects from
`tplScf` on empty user input. -/
def scfExpected : Value :=
  .vdict [("scf", .vdict [("max_num_iterations", .vint 20),
                          ("another_number", .vint 2)])]

/-- Fixture for the cycle claims: two keywords whose defaults reference
each other. -/
def tplCycle : Template :=
  .mk "" none
    [{ name := "A", type := some "int", docstring := some "doc A",
       default := some (.vstr "user['B']") },
     { name := "B", type := some "int", docstring := some "doc B",
       default := some (.vstr "user['A']") }]
    []

/-- Fixture for the reordering claims: keywords `[b, a, c]` where `a`
references `b` and `b` references `c`. -/
def tplChain : Template :=
  .mk "" none
    [{ name := "b", type := some "int", docstring := some "doc b",
       default := some (.vstr "user['c']") },
     { name := "a", type := some "int", docstring := some "doc a",
       default := some (.vstr "user['b']") },
     { name := "c", type := some "int", docstring := some "doc c",
       default := some (.vint 1) }]
    []

/-- Fixture for the merge claims: two sections with one defaulted keyword
each. -/
def tplTwoSections : Template :=
  .mk "" none []
    [.mk "s1" (some "d1")
      [{ name := "k1", type := some "int", docstring := some "dk",
         default := some (.vint 1) }] [],
     .mk "s2" (some "d2")
      [{ name := "k2", type := some "int", docstring := some "dk",
         default := some (.vint 2) }] []]

/-- A defaults view with two sections of one keyword each, used to
exercise the merge on unexpected keys in different sections. -/
def tsW : List (String × Value) :=
  [("s1", .vdict [("k1", .vint 1)]), ("s2", .vdict [("k2", .vint 2)])]

/-- A user input with one unexpected key in each of the two sections of
`tsW`: a scalar `x` under `s1` and a mapping `y` under `s2`. -/
def osW : List (String × Value) :=
  [("s1", .vdict [("x", .vint 7)]), ("s2", .vdict [("y", .vdict [])])]

/-- The merged tree for `tsW` against `osW`: the schema defaults, with
the unexpected keys dropped. -/
def resW : Value :=
  .vdict [("s1", .vdict [("k1", .vint 1)]), ("s2", .vdict [("k2", .vint 2)])]

/-- The error list for `tsW` against `osW`: one unexpected-key report per
offending key, both in one run. -/
def errsW : List Error :=
  [⟨[], "Found unexpected keyword: 'x'."⟩,
   ⟨[], "Found unexpected section: 'y'."⟩]

/-- The template the checker returns for `tplChain`: the dependency-graph
node names in insertion order are `b, c, a`, so the shuffle moves `a`,
then `c`, then `b` to the back — leaving `a` (which references `b`)
before `b`. -/
def chainReordered : Template :=
  .mk "" none
    [{ name := "a", type := some "int", docstring := some "doc a",
       default := some (.vstr "user['b']") },
     { name := "c", type := some "int", docstring := some "doc c",
       default := some (.vint 1) },
     { name := "b", type := some "int", docstring := some "doc b",
       default := some (.vstr "user['c']") }]
    []


theorem exbind_ok {e a b : Type} (x : a) (f : a → Except e b) :
    (Except.ok x : Except e a) >>= f = f x := rfl

theorem exbind_error {e a b : Type} (err : e) (f : a → Except e b) :
    (Except.error err : Except e a) >>= f = .error err := rfl

theorem contains_eq_false_of_not_mem {t : String} {l : List String}
    (ht : t ∉ l) : l.contains t = false := by
  simpa using ht

/-- C6: `type_matches` returns `True` for a scalar declared type exactly
when the value's runtime type name equals it (so an `int` is never
accepted where `float` is declared, nor a `bool` where `int` is
declared), returns `True` for `List[T]` exactly when the value is a list
whose every element scalar-matches `T`, and raises a `ValueError`
(rather than returning `False`) on any declared type outside the closed
set of scalar and list types. -/
theorem type_matches_characterization :
    (∀ (v : Value) (t : String), t ∈ allowed_scalar_types →
      type_matches v t = .ok (pyTypeName v == t)) ∧
    (∀ (v : Value) (t : String), t ∈ allowed_scalar_types →
      type_matches v ("List[" ++ t ++ "]") =
        .ok (match v with
             | .vlist xs => xs.all (fun x => pyTypeName x == t)
             | _ => false)) ∧
    (∀ n : Int, type_matches (.vint n) "float" = .ok false) ∧
    (∀ b : Bool, type_matches (.vbool b) "int" = .ok false) ∧
    (∀ (v : Value) (t : String), t ∉ allowed_types →
      type_matches v t =
        .error (.valueError ("could not recognize expected_type: " ++ t))) := by
  refine ⟨?_, ?_, ?_, ?_, ?_⟩
  · intro v t ht
    simp only [allowed_scalar_types, List.mem_cons, List.not_mem_nil, or_false] at ht
    rcases ht with rfl | rfl | rfl | rfl | rfl <;> rfl
  · intro v t ht
    simp only [allowed_scalar_types, List.mem_cons, List.not_mem_nil, or_false] at ht
    rcases ht with rfl | rfl | rfl | rfl | rfl <;> cases v <;> rfl
  · intro n; rfl
  · intro b; rfl
  · intro v t ht
    have hc : allowed_types.contains t = false := contains_eq_false_of_not_mem ht
    unfold type_matches
    rw [hc]
    rfl

/-- Witness for C6 at concrete inputs: `3` is rejected where `float` is
declared, `[1, 2]` matches `List[int]`, and the declared type `array`
raises. -/
theorem type_matches_characterization_witness :
    type_matches (.vint 3) "float" = .ok false ∧
    type_matches (.vlist [.vint 1, .vint 2]) ("List[" ++ "int" ++ "]") = .ok true ∧
    type_matches (.vint 3) "array" =
      .error (.valueError ("could not recognize expected_type: " ++ "array")) := by
  refine ⟨?_, ?_, ?_⟩
  · exact type_matches_characterization.2.2.1 3
  · exact (type_matches_characterization.2.1 (.vlist [.vint 1, .vint 2]) "int"
      (by decide)).trans (by rfl)
  · exact type_matches_characterization.2.2.2.2 (.vint 3) "array" (by decide)

/-- C7 (code bug): a value declared `complex` that is textually a complex
number string is NOT retried by the engine: it fails `type_matches`, does
not contain the reserved token `"user"` (the only condition under which
`_rec_fix_defaults` re-runs a string), and therefore produces a
type-mismatch error instead of the coerced complex value that the
repository's own tests (`tests/test_default_actions.py`, raw fixture)
expect. -/
theorem complex_string_never_retried :
    type_matches (.vstr "0.0+0.0j") "complex" = .ok false ∧
    containsSub "user" "0.0+0.0j" = false ∧
    fix_defaults (.vdict [("some_complex_number", .vstr "0.0+0.0j")])
      (.vdict [("some_complex_number", .vstr "complex")]) =
      .error (.raised ("\nError occurred when fixing defaults:\n- At user['some_complex_number']:\n  Actual (str) and declared (complex) types do not match.")) :=
  ⟨rfl, rfl, rfl⟩

/-- C10: when the defaults view holds a nested section and the user input
holds a non-mapping scalar under the same key, the recursive merge step
calls `.keys()` on the scalar and raises an uncaught `AttributeError` —
no `Error` is recorded for that key and merge is not total. -/
theorem merge_section_scalar_not_total :
    (∀ (theirsE : List (String × Value)) (w : Value) (address : List String),
      w.isDict = false →
      rec_merge_ours (.vdict theirsE) w address =
        .error (.attributeError ("'" ++ pyTypeName w ++ "' object has no attribute 'keys'"))) ∧
    (∀ (k : String) (sub oursE : List (String × Value)) (w : Value)
       (address : List String),
      dictHas oursE k = true → dictGetD oursE k = w → w.isDict = false →
      merge_one k (.vdict sub) oursE address =
        .error (.attributeError ("'" ++ pyTypeName w ++ "' object has no attribute 'keys'"))) ∧
    rec_merge_ours (.vdict [("scf", .vdict [("x", .vint 1)])])
      (.vdict [("scf", .vint 3)]) [] =
      .error (.attributeError "'int' object has no attribute 'keys'") := by
  refine ⟨?_, ?_, rfl⟩
  · intro theirsE w address hw
    cases w <;> first | rfl | simp [Value.isDict] at hw
  · intro k sub oursE w address hk hv hw
    unfold merge_one
    rw [hk]
    simp only [Bool.not_true, Bool.false_eq_true, if_false]
    rw [hv]
    cases w <;> first | rfl | simp [Value.isDict] at hw

/-- Witness for C10 at a concrete input: the step on key `scf` with a
section schema and the scalar `3` in user input crashes. -/
theorem merge_section_scalar_not_total_witness :
    merge_one "scf" (.vdict [("x", .vint 1)]) [("scf", .vint 3)] [] =
      .error (.attributeError ("'" ++ pyTypeName (.vint 3) ++ "' object has no attribute 'keys'")) :=
  merge_section_scalar_not_total.2.1 "scf" [("x", .vint 1)] [("scf", .vint 3)]
    (.vint 3) [] (by decide) (by rfl) (by rfl)

/-- C9 counterexample: an evaluation failure that is not one of the four
caught exception kinds — here a `ZeroDivisionError` from a default
expression dividing by a zero-valued field — propagates out of default
fixing as an uncaught exception instead of being converted into an
`Error`. -/
theorem uncaught_evaluation_failure :
    fix_defaults
      (.vdict [("x", .vstr "user['y'] / user['z']"), ("y", .vint 1), ("z", .vint 0)])
      (.vdict [("x", .vstr "int"), ("y", .vstr "int"), ("z", .vstr "int")]) =
      .error (.crashed (.zeroDivisionError "division by zero")) ∧
    run_callable "user['y'] / user['z']"
      (.vdict [("y", .vint 1), ("z", .vint 0)]) "int" =
      .error (.zeroDivisionError "division by zero") :=
  ⟨rfl, rfl⟩

/-- C9 (amended): an evaluation or coercion failure raising `KeyError`,
`SyntaxError`, `TypeError` or `NameError` is caught and converted into
exactly one `Error(address, message)` quoting the failing expression, and
the tree walk continues with the remaining fields; failures of any other
exception kind propagate uncaught (see the counterexample). -/
theorem evaluation_failures_caught_amended :
    (∀ (f : String) (d : Value) (t : String) (exc : PyExc) (msg : String),
      (do let result ← evalClosure f d
          type_fixers t result : Except PyExc Value) = .error exc →
      caughtMessage exc f = some msg →
      run_callable f d t = .ok (msg, none)) ∧
    (∀ (f : String) (d : Value) (t : String) (exc : PyExc),
      (do let result ← evalClosure f d
          type_fixers t result : Except PyExc Value) = .error exc →
      caughtMessage exc f = none →
      run_callable f d t = .error exc) ∧
    (∀ (p whereStr : String) (u : Value) (exc : PyExc) (msg : String),
      evalClosure (replaceSub p "value" whereStr) u = .error exc →
      caughtMessage exc p = some msg →
      run_predicate p whereStr u = .ok (msg, false)) ∧
    (∀ (k s : String) (types sd : Value) (rest : List (String × Value))
       (address : List String) (t : String) (msg : String),
      types_lookup types k = .ok (.vstr t) →
      type_matches (.vstr s) t = .ok false →
      containsSub "user" s = true →
      run_callable s sd t = .ok (msg, none) →
      msg ≠ "" →
      fix_entries ((k, .vstr s) :: rest) types sd address =
        (match fix_entries rest types sd address with
         | .ok tail =>
           .ok ((k, Value.vnull) :: tail.fst,
                (⟨address ++ [k], msg⟩ : Error) :: tail.snd.fst, tail.snd.snd)
         | .error e => .error e)) := by
  refine ⟨?_, ?_, ?_, ?_⟩
  · intro f d t exc msg hbody hmsg
    unfold run_callable
    rw [hbody]
    cases exc <;> simp_all [caughtMessage]
  · intro f d t exc hbody hmsg
    unfold run_callable
    rw [hbody]
    cases exc <;> simp_all [caughtMessage]
  · intro p whereStr u exc msg heval hmsg
    unfold run_predicate
    simp only [heval]
    cases exc <;> simp_all [caughtMessage]
  · intro k s types sd rest address t msg hty hmatch huser hrun hmsg
    have hone : fix_one k (.vstr s) types sd address =
        .ok ([(k, Value.vnull)], [(⟨address ++ [k], msg⟩ : Error)], sd) := by
      unfold fix_one
      rw [hty, exbind_ok]
      show (do
        let t2 ← expect_type_str (.vstr t)
        let typesOk ← type_matches (Value.vstr s) t2
        if typesOk then do
          let fixedV ← type_fixers t2 (Value.vstr s)
          Except.ok ([(k, fixedV)], [],
            nested_set sd (address ++ [k]) fixedV)
        else fix_mismatched k (.vstr s) t2 sd address) = _
      rw [show expect_type_str (.vstr t) = Except.ok t from rfl, exbind_ok,
          hmatch, exbind_ok]
      simp only [Bool.false_eq_true, if_false]
      simp only [fix_mismatched]
      rw [huser]
      simp only [if_true]
      rw [hrun, exbind_ok]
      simp only [Option.getD, if_neg hmsg]
    show (do
      let head ← fix_one k (.vstr s) types sd address
      let tail ← fix_entries rest types head.snd.snd address
      Except.ok (head.fst ++ tail.fst, head.snd.fst ++ tail.snd.fst, tail.snd.snd)) =
      _
    rw [hone, exbind_ok]
    cases fix_entries rest types sd address <;> rfl

/-- Witness for C9 (amended) at concrete inputs: a reference to a missing
key is caught as a `KeyError` category error and the walk continues past
the field. -/
theorem evaluation_failures_caught_amended_witness :
    run_callable "user['oops']" (.vdict []) "int" =
      .ok ("KeyError 'oops' in closure 'user['oops']'.", none) ∧
    fix_entries [("x", .vstr "user['oops']")] (.vdict [("x", .vstr "int")])
      (.vdict []) [] =
      .ok ([("x", Value.vnull)],
           [(⟨["x"], "KeyError 'oops' in closure 'user['oops']'."⟩ : Error)],
           .vdict []) := by
  constructor
  · exact evaluation_failures_caught_amended.1 "user['oops']" (.vdict []) "int"
      (.keyError "'oops'") "KeyError 'oops' in closure 'user['oops']'." rfl rfl
  · have h := evaluation_failures_caught_amended.2.2.2 "x" "user['oops']"
      (.vdict [("x", .vstr "int")]) (.vdict []) [] [] "int"
      "KeyError 'oops' in closure 'user['oops']'." rfl rfl rfl rfl (by decide)
    rw [h]
    rfl

theorem fix_entries_cons_ok {k : String} {v types sd : Value}
    {rest : List (String × Value)} {address : List String}
    {out : List (String × Value)} {errs : List Error} {sd2 : Value}
    (hone : fix_one k v types sd address = .ok (out, errs, sd2)) :
    fix_entries ((k, v) :: rest) types sd address =
      (match fix_entries rest types sd2 address with
       | .ok tail => .ok (out ++ tail.fst, errs ++ tail.snd.fst, tail.snd.snd)
       | .error e => .error e) := by
  show (do
    let head ← fix_one k v types sd address
    let tail ← fix_entries rest types head.snd.snd address
    Except.ok (head.fst ++ tail.fst, head.snd.fst ++ tail.snd.fst, tail.snd.snd)) = _
  rw [hone, exbind_ok]
  cases fix_entries rest types sd2 address <;> rfl

theorem fix_one_types_ok {k : String} {v types sd : Value}
    {address : List String} {t : String} {w : Value}
    (hdict : v.isDict = false)
    (hty : types_lookup types k = .ok (.vstr t))
    (hmatch : type_matches v t = .ok true)
    (hfix : type_fixers t v = .ok w) :
    fix_one k v types sd address =
      .ok ([(k, w)], [], nested_set sd (address ++ [k]) w) := by
  cases v
  case vdict entries => simp [Value.isDict] at hdict
  all_goals
    unfold fix_one
    rw [hty, exbind_ok]
    rw [show ∀ s, expect_type_str (.vstr s) = Except.ok s from fun _ => rfl,
        exbind_ok, hmatch, exbind_ok]
    simp only [if_true]
    rw [hfix, exbind_ok]

theorem fix_one_callable_ok {k s : String} {types sd : Value}
    {address : List String} {t : String} {w : Value}
    (hty : types_lookup types k = .ok (.vstr t))
    (hmatch : type_matches (.vstr s) t = .ok false)
    (huser : containsSub "user" s = true)
    (hrun : run_callable s sd t = .ok ("", some w)) :
    fix_one k (.vstr s) types sd address =
      .ok ([(k, w)], [], nested_set sd (address ++ [k]) w) := by
  unfold fix_one
  rw [hty, exbind_ok]
  rw [show expect_type_str (.vstr t) = Except.ok t from rfl, exbind_ok,
      hmatch, exbind_ok]
  simp only [Bool.false_eq_true, if_false]
  simp only [fix_mismatched]
  rw [huser]
  simp only [if_true]
  rw [hrun, exbind_ok]
  rfl

/-- C3: default resolution is sequential in schema order over a start
dictionary initialized to the merged tree — after a field resolves
without error (by direct coercion or by running its default expression),
its coerced value is written back into the start dictionary at the
field's address before the next field is processed, so later default
expressions read already-resolved values.  In particular the spec's
end-to-end scenario (`scf.max_num_iterations: int = 20`,
`scf.another_number: int = "user['scf']['max_num_iterations'] / 10"`,
empty user input) validates to `{scf: {max_num_iterations: 20,
another_number: 2}}`. -/
theorem fix_defaults_writeback :
    (∀ (k : String) (v types sd : Value) (rest : List (String × Value))
       (address : List String) (t : String) (w : Value),
      v.isDict = false →
      types_lookup types k = .ok (.vstr t) →
      type_matches v t = .ok true →
      type_fixers t v = .ok w →
      fix_entries ((k, v) :: rest) types sd address =
        (match fix_entries rest types (nested_set sd (address ++ [k]) w) address with
         | .ok tail => .ok ((k, w) :: tail.fst, tail.snd.fst, tail.snd.snd)
         | .error e => .error e)) ∧
    (∀ (k s : String) (types sd : Value) (rest : List (String × Value))
       (address : List String) (t : String) (w : Value),
      types_lookup types k = .ok (.vstr t) →
      type_matches (.vstr s) t = .ok false →
      containsSub "user" s = true →
      run_callable s sd t = .ok ("", some w) →
      fix_entries ((k, .vstr s) :: rest) types sd address =
        (match fix_entries rest types (nested_set sd (address ++ [k]) w) address with
         | .ok tail => .ok ((k, w) :: tail.fst, tail.snd.fst, tail.snd.snd)
         | .error e => .error e)) ∧
    validate (.vdict []) tplScf = .ok scfExpected := by
  refine ⟨?_, ?_, rfl⟩
  · intro k v types sd rest address t w hdict hty hmatch hfix
    rw [fix_entries_cons_ok (fix_one_types_ok hdict hty hmatch hfix)]
    cases fix_entries rest types (nested_set sd (address ++ [k]) w) address <;> rfl
  · intro k s types sd rest address t w hty hmatch huser hrun
    rw [fix_entries_cons_ok (fix_one_callable_ok hty hmatch huser hrun)]
    cases fix_entries rest types (nested_set sd (address ++ [k]) w) address <;> rfl

/-- Witness for C3 at concrete inputs: resolving `n` writes the coerced
`7` back before `m` is processed, and `m`'s expression then reads the
resolved value. -/
theorem fix_defaults_writeback_witness :
    fix_entries [("n", .vint 7), ("m", .vstr "user['n'] * 2")]
      (.vdict [("n", .vstr "int"), ("m", .vstr "int")])
      (.vdict [("n", .vint 7), ("m", .vstr "user['n'] * 2")]) [] =
      .ok ([("n", .vint 7), ("m", .vint 14)], [],
           .vdict [("n", .vint 7), ("m", .vint 14)]) := by
  rw [fix_defaults_writeback.1 "n" (.vint 7)
      (.vdict [("n", .vstr "int"), ("m", .vstr "int")])
      (.vdict [("n", .vint 7), ("m", .vstr "user['n'] * 2")])
      [("m", .vstr "user['n'] * 2")] [] "int" (.vint 7) rfl rfl rfl rfl]
  rfl

theorem isEmpty_false_of_ne_nil {α : Type} {l : List α} (h : l ≠ []) :
    l.isEmpty = false := by
  cases l with
  | nil => exact absurd rfl h
  | cons x xs => rfl

/-- C1: the orchestrator runs schema check (including cycle detection),
view building, merge, default fixing and predicate checking in that
order; a phase that records at least one error raises one aggregated
failure listing every error that phase collected and no later phase
affects the outcome; the validated Result Tree is returned exactly when
every phase completed with zero errors, so no partial result is ever
returned. -/
theorem validate_orchestration :
    ∀ (ir : Value) (tpl : Template),
    (∀ f, is_template_valid tpl = .error f → validate ir tpl = .error f) ∧
    (∀ tpl2 merged errs, is_template_valid tpl = .ok tpl2 →
      rec_merge_ours (view_by_default tpl2) ir [] = .ok (merged, errs) →
      errs ≠ [] →
      validate ir tpl = .error (.raised (collate_errors "merging" errs))) ∧
    (∀ tpl2 merged fr fErrs sd, is_template_valid tpl = .ok tpl2 →
      rec_merge_ours (view_by_default tpl2) ir [] = .ok (merged, []) →
      rec_fix_defaults merged (view_by_type tpl2) merged [] = .ok (fr, fErrs, sd) →
      fErrs ≠ [] →
      validate ir tpl = .error (.raised (collate_errors "fixing defaults" fErrs))) ∧
    (∀ tpl2 merged fr sd pErrs, is_template_valid tpl = .ok tpl2 →
      rec_merge_ours (view_by_default tpl2) ir [] = .ok (merged, []) →
      rec_fix_defaults merged (view_by_type tpl2) merged [] = .ok (fr, [], sd) →
      rec_check_predicates fr (view_by_predicates tpl2) fr [] = .ok pErrs →
      pErrs ≠ [] →
      validate ir tpl = .error (.raised (collate_errors "checking predicates" pErrs))) ∧
    (∀ fr, validate ir tpl = .ok fr ↔
      ∃ tpl2 merged sd,
        is_template_valid tpl = .ok tpl2 ∧
        rec_merge_ours (view_by_default tpl2) ir [] = .ok (merged, []) ∧
        rec_fix_defaults merged (view_by_type tpl2) merged [] = .ok (fr, [], sd) ∧
        rec_check_predicates fr (view_by_predicates tpl2) fr [] = .ok []) := by
  intro ir tpl
  refine ⟨?_, ?_, ?_, ?_, ?_⟩
  · intro f hf
    unfold validate
    rw [hf, exbind_error]
  · intro tpl2 merged errs hok hmerge herrs
    unfold validate
    rw [hok, exbind_ok]
    unfold validate_from_dicts merge_ours
    rw [hmerge]
    simp only [isEmpty_false_of_ne_nil herrs, Bool.false_eq_true, if_false,
      exbind_error]
  · intro tpl2 merged fr fErrs sd hok hmerge hfix hferrs
    unfold validate
    rw [hok, exbind_ok]
    unfold validate_from_dicts merge_ours fix_defaults
    rw [hmerge]
    simp only [List.isEmpty_nil, if_true, exbind_ok]
    rw [hfix]
    simp only [isEmpty_false_of_ne_nil hferrs, Bool.false_eq_true, if_false,
      exbind_error]
  · intro tpl2 merged fr sd pErrs hok hmerge hfix hpred hperrs
    unfold validate
    rw [hok, exbind_ok]
    unfold validate_from_dicts merge_ours fix_defaults check_predicates
    rw [hmerge]
    simp only [List.isEmpty_nil, if_true, exbind_ok]
    rw [hfix]
    simp only [List.isEmpty_nil, if_true, exbind_ok]
    rw [hpred]
    simp only [isEmpty_false_of_ne_nil hperrs, Bool.false_eq_true, if_false,
      exbind_error]
  · intro fr
    constructor
    · intro hval
      unfold validate at hval
      cases htpl : is_template_valid tpl with
      | error f => rw [htpl, exbind_error] at hval; exact absurd hval (by simp [exbind_error, exbind_ok])
      | ok tpl2 =>
        rw [htpl, exbind_ok] at hval
        unfold validate_from_dicts merge_ours fix_defaults check_predicates at hval
        cases hmerge : rec_merge_ours (view_by_default tpl2) ir [] with
        | error exc => rw [hmerge] at hval; exact absurd hval (by simp [exbind_error, exbind_ok])
        | ok mp =>
          rw [hmerge] at hval
          cases hne : mp.snd.isEmpty with
          | false =>
            simp only [hne, Bool.false_eq_true, if_false, exbind_error] at hval
            exact absurd hval (by simp)
          | true =>
            simp only [hne, if_true, exbind_ok] at hval
            have hmnil : mp.snd = [] := by
              cases hsnd : mp.snd with
              | nil => rfl
              | cons x xs => rw [hsnd] at hne; exact absurd hne (by simp)
            cases hfix : rec_fix_defaults mp.fst (view_by_type tpl2) mp.fst [] with
            | error exc => rw [hfix] at hval; exact absurd hval (by simp [exbind_error, exbind_ok])
            | ok fp =>
              rw [hfix] at hval
              cases hfne : fp.snd.fst.isEmpty with
              | false =>
                simp only [hfne, Bool.false_eq_true, if_false, exbind_error] at hval
                exact absurd hval (by simp)
              | true =>
                simp only [hfne, if_true, exbind_ok] at hval
                have hfnil : fp.snd.fst = [] := by
                  cases hsnd : fp.snd.fst with
                  | nil => rfl
                  | cons x xs => rw [hsnd] at hfne; exact absurd hfne (by simp)
                cases hpred : rec_check_predicates fp.fst (view_by_predicates tpl2) fp.fst [] with
                | error exc => rw [hpred] at hval; exact absurd hval (by simp [exbind_error, exbind_ok])
                | ok pErrs =>
                  rw [hpred] at hval
                  cases hpne : pErrs.isEmpty with
                  | false =>
                    simp only [hpne, Bool.false_eq_true, if_false, exbind_error] at hval
                    exact absurd hval (by simp)
                  | true =>
                    simp only [hpne, if_true, exbind_ok] at hval
                    have hpnil : pErrs = [] := by
                      cases hsnd : pErrs with
                      | nil => rfl
                      | cons x xs => rw [hsnd] at hpne; exact absurd hpne (by simp)
                    have hfr : fp.fst = fr := by
                      simpa using hval
                    refine ⟨tpl2, mp.fst, fp.snd.snd, rfl, ?_, ?_, ?_⟩
                    · rw [← hmnil]; exact hmerge
                    · rw [← hfr, ← hfnil]
                      simpa using hfix
                    · rw [← hpnil, ← hfr]; exact hpred
    · rintro ⟨tpl2, merged, sd, htpl, hmerge, hfix, hpred⟩
      unfold validate
      rw [htpl, exbind_ok]
      unfold validate_from_dicts merge_ours fix_defaults check_predicates
      rw [hmerge]
      simp only [List.isEmpty_nil, if_true, exbind_ok]
      rw [hfix]
      simp only [List.isEmpty_nil, if_true, exbind_ok]
      rw [hpred]
      simp only [List.isEmpty_nil, if_true, exbind_ok]

/-- Witness for C1 at a concrete input: a schema requiring `title` with
no default and an empty user input fails in the merge phase with the
single aggregated "merging" report. -/
theorem validate_orchestration_witness :
    validate (.vdict []) tplTitle =
      .error (.raised (collate_errors "merging"
        [⟨["title"], "Keyword 'title' is required but has no value."⟩])) :=
  (validate_orchestration (.vdict []) tplTitle).2.1 tplTitle
    (.vdict [("title", .vnull)])
    [⟨["title"], "Keyword 'title' is required but has no value."⟩]
    rfl rfl (by decide)

/-- C8: each predicate string is processed in declaration order — the
placeholder `value` is replaced by the field's fully-qualified reference
and the result evaluated against the whole fixed tree; a falsy result
yields "Predicate '<original>' not satisfied" at the field's address, a
caught evaluation exception yields a categorized message quoting the
original predicate text, and every field's predicates are checked in one
run with the errors accumulated. -/
theorem predicate_engine_characterization :
    (∀ (p whereStr : String) (u r : Value),
      evalClosure (replaceSub p "value" whereStr) u = .ok r →
      run_predicate p whereStr u =
        .ok (if pyTruthy r then ("", true)
             else ("Predicate '" ++ p ++ "' not satisfied.", false))) ∧
    (∀ (p whereStr : String) (u : Value) (exc : PyExc) (msg : String),
      evalClosure (replaceSub p "value" whereStr) u = .error exc →
      caughtMessage exc p = some msg →
      run_predicate p whereStr u = .ok (msg, false)) ∧
    (∀ (ps : List String) (k : String) (sd : Value) (address : List String),
      (∀ p ∈ ps, ∃ mb, run_predicate p (location_in_dict (address ++ [k])) sd = .ok mb) →
      run_predicates_of (ps.map .vstr) k sd address =
        .ok (ps.filterMap (fun p =>
          match run_predicate p (location_in_dict (address ++ [k])) sd with
          | .ok (msg, false) => some (⟨address ++ [k], msg⟩ : Error)
          | _ => none))) ∧
    rec_check_predicates
      (.vdict [("n", .vint 50), ("m", .vint 3)])
      (.vdict [("n", .vlist [.vstr "0 <= value", .vstr "value <= 40"]),
               ("m", .vlist [.vstr "value % 2 == 0"])])
      (.vdict [("n", .vint 50), ("m", .vint 3)]) [] =
      .ok [⟨["n"], "Predicate 'value <= 40' not satisfied."⟩,
           ⟨["m"], "Predicate 'value % 2 == 0' not satisfied."⟩] := by
  refine ⟨?_, ?_, ?_, rfl⟩
  · intro p whereStr u r heval
    unfold run_predicate
    simp only [heval]
    cases ht : pyTruthy r <;> simp [ht]
  · intro p whereStr u exc msg heval hmsg
    unfold run_predicate
    simp only [heval]
    cases exc <;> simp_all [caughtMessage]
  · intro ps k sd address hok
    induction ps with
    | nil => rfl
    | cons p rest ih =>
      obtain ⟨mb, hmb⟩ := hok p (by simp)
      have hrest := ih (fun q hq => hok q (by simp [hq]))
      simp only [List.map_cons, List.filterMap_cons]
      unfold run_predicates_of
      simp only [hmb, hrest, exbind_ok]
      obtain ⟨msg, flag⟩ := mb
      cases flag <;> simp

/-- Witness for C8 at concrete inputs: the predicate `value <= 40` on the
field `n` holding `50` substitutes, evaluates falsy and is reported; the
two predicates of the field are processed in order. -/
theorem predicate_engine_characterization_witness :
    run_predicate "value <= 40" "user['n']" (.vdict [("n", .vint 50)]) =
      .ok (if pyTruthy (.vbool false) then ("", true)
           else ("Predicate 'value <= 40' not satisfied.", false)) ∧
    run_predicates_of (List.map Value.vstr ["0 <= value", "value <= 40"])
      "n" (.vdict [("n", .vint 50)]) [] =
      .ok (["0 <= value", "value <= 40"].filterMap (fun p =>
        match run_predicate p (location_in_dict ([] ++ ["n"]))
            (.vdict [("n", .vint 50)]) with
        | .ok (msg, false) => some (⟨[] ++ ["n"], msg⟩ : Error)
        | _ => none)) := by
  constructor
  · exact predicate_engine_characterization.1 "value <= 40" "user['n']"
      (.vdict [("n", .vint 50)]) (.vbool false) rfl
  · refine predicate_engine_characterization.2.2.1 ["0 <= value", "value <= 40"]
      "n" (.vdict [("n", .vint 50)]) [] ?_
    intro p hp
    simp only [List.mem_cons, List.not_mem_nil, or_false] at hp
    rcases hp with rfl | rfl
    · exact ⟨_, rfl⟩
    · exact ⟨_, rfl⟩

theorem merge_entries_cons_ok {k : String} {v : Value}
    {rest oursE : List (String × Value)} {address : List String}
    {out : List (String × Value)} {errs : List Error}
    (h : merge_entries ((k, v) :: rest) oursE address = .ok (out, errs)) :
    ∃ ho he tlo tle, merge_one k v oursE address = .ok (ho, he) ∧
      merge_entries rest oursE address = .ok (tlo, tle) ∧
      out = ho ++ tlo ∧ errs = he ++ tle := by
  have hh : merge_entries ((k, v) :: rest) oursE address = (do
      let head ← merge_one k v oursE address
      let tail ← merge_entries rest oursE address
      Except.ok (head.fst ++ tail.fst, head.snd ++ tail.snd)) := rfl
  rw [hh] at h
  cases hone : merge_one k v oursE address with
  | error e => rw [hone, exbind_error] at h; exact absurd h (by simp)
  | ok ho =>
    rw [hone, exbind_ok] at h
    cases htail : merge_entries rest oursE address with
    | error e => rw [htail, exbind_error] at h; exact absurd h (by simp)
    | ok tl =>
      rw [htail, exbind_ok] at h
      refine ⟨ho.fst, ho.snd, tl.fst, tl.snd, rfl, rfl, ?_, ?_⟩
      · exact (congrArg Prod.fst (Except.ok.inj h)).symm
      · exact (congrArg Prod.snd (Except.ok.inj h)).symm

theorem merge_one_missing_null {k : String} {oursE : List (String × Value)}
    {address : List String} (h : dictHas oursE k = false) :
    merge_one k .vnull oursE address =
      .ok ([(k, .vnull)],
           [⟨address ++ [k], "Keyword '" ++ k ++ "' is required but has no value."⟩]) := by
  unfold merge_one
  rw [h]
  rfl

theorem merge_one_missing_nonnull {k : String} {v : Value}
    {oursE : List (String × Value)} {address : List String}
    (h : dictHas oursE k = false) (hv : v ≠ .vnull) :
    merge_one k v oursE address = .ok ([(k, v)], []) := by
  cases v
  case vnull => exact absurd rfl hv
  all_goals
    unfold merge_one
    rw [h]
    rfl

theorem merge_one_present_nondict {k : String} {v : Value}
    {oursE : List (String × Value)} {address : List String}
    (h : dictHas oursE k = true) (hv : v.isDict = false) :
    merge_one k v oursE address = .ok ([(k, dictGetD oursE k)], []) := by
  cases v
  case vdict entries => simp [Value.isDict] at hv
  all_goals
    unfold merge_one
    rw [h]
    rfl

theorem merge_one_present_dict_ok {k : String}
    {sub oursE : List (String × Value)} {address : List String}
    {o : List (String × Value)} {e : List Error}
    (hd : dictHas oursE k = true)
    (h : merge_one k (.vdict sub) oursE address = .ok (o, e)) :
    ∃ oursSub m me, dictGetD oursE k = .vdict oursSub ∧
      merge_entries sub oursSub (address ++ [k]) = .ok (m, me) ∧
      rec_merge_ours (.vdict sub) (.vdict oursSub) (address ++ [k]) =
        .ok (.vdict m, unexpected_errors sub oursSub ++ me) ∧
      o = [(k, .vdict m)] ∧ e = unexpected_errors sub oursSub ++ me := by
  unfold merge_one at h
  rw [hd] at h
  simp only [Bool.not_true, Bool.false_eq_true, if_false] at h
  cases hg : dictGetD oursE k
  case vdict oursSub =>
    simp only [hg] at h
    cases hm : merge_entries sub oursSub (address ++ [k]) with
    | error e2 => rw [hm, exbind_error] at h; exact absurd h (by simp)
    | ok m =>
      rw [hm, exbind_ok] at h
      have ho : o = [(k, .vdict m.fst)] := (congrArg Prod.fst (Except.ok.inj h)).symm
      have he : e = unexpected_errors sub oursSub ++ m.snd :=
        (congrArg Prod.snd (Except.ok.inj h)).symm
      refine ⟨oursSub, m.fst, m.snd, rfl, hm, ?_, ho, he⟩
      have hr : rec_merge_ours (.vdict sub) (.vdict oursSub) (address ++ [k]) = (do
          let merged ← merge_entries sub oursSub (address ++ [k])
          Except.ok (Value.vdict merged.fst, unexpected_errors sub oursSub ++ merged.snd)) := rfl
      rw [hr, hm, exbind_ok]
  all_goals simp only [hg] at h
  all_goals exact Except.noConfusion h

theorem merge_one_ok_keys {k : String} {v : Value}
    {oursE : List (String × Value)} {address : List String}
    {o : List (String × Value)} {e : List Error}
    (h : merge_one k v oursE address = .ok (o, e)) :
    dictKeys o = [k] := by
  cases hd : dictHas oursE k with
  | false =>
    cases v
    case vnull => rw [merge_one_missing_null hd] at h; cases h; rfl
    all_goals
      rw [merge_one_missing_nonnull hd (by intro hc; cases hc)] at h
      cases h
      rfl
  | true =>
    cases v
    case vdict sub =>
      obtain ⟨_, _, _, _, _, _, ho, _⟩ := merge_one_present_dict_ok hd h
      rw [ho]
      rfl
    all_goals
      rw [merge_one_present_nondict hd (by rfl)] at h
      cases h
      rfl

theorem merge_entries_ok_keys {theirsE oursE : List (String × Value)}
    {address : List String} {out : List (String × Value)} {errs : List Error}
    (h : merge_entries theirsE oursE address = .ok (out, errs)) :
    dictKeys out = dictKeys theirsE := by
  induction theirsE generalizing out errs with
  | nil => cases h; rfl
  | cons e rest ih =>
    obtain ⟨ho, he, tlo, tle, hone, htail, hout, herrs⟩ := merge_entries_cons_ok h
    rw [hout]
    have h1 : dictKeys ho = [e.fst] := merge_one_ok_keys hone
    have h2 : dictKeys tlo = dictKeys rest := ih htail
    simp only [dictKeys, List.map_append] at h1 h2 ⊢
    rw [h1, h2]
    rfl

theorem dictHas_false_not_mem {es : List (String × Value)} {k : String}
    (h : dictHas es k = false) : k ∉ dictKeys es := by
  intro hm
  have hc : (dictKeys es).contains k = true := by simpa using hm
  rw [dictHas, hc] at h
  exact Bool.noConfusion h

theorem mem_unexpected_errors {theirsE oursE : List (String × Value)} {k : String}
    (hk : k ∈ dictKeys oursE) (hh : dictHas theirsE k = false) :
    (⟨[], "Found unexpected " ++
        (if (dictGetD oursE k).isDict then "section" else "keyword") ++
        ": '" ++ k ++ "'."⟩ : Error) ∈ unexpected_errors theirsE oursE := by
  unfold unexpected_errors
  refine List.mem_map.mpr ⟨k, ?_, rfl⟩
  refine List.mem_filter.mpr ⟨hk, ?_⟩
  simp [hh]

theorem merge_entries_entry_ok {theirsE oursE : List (String × Value)}
    {address : List String} {out : List (String × Value)} {errs : List Error}
    {k : String} {v : Value}
    (hmem : (k, v) ∈ theirsE)
    (h : merge_entries theirsE oursE address = .ok (out, errs)) :
    ∃ ho he, merge_one k v oursE address = .ok (ho, he) ∧
      (∀ p ∈ ho, p ∈ out) ∧ (∀ e ∈ he, e ∈ errs) := by
  induction theirsE generalizing out errs with
  | nil => cases hmem
  | cons hd rest ih =>
    obtain ⟨k1, v1⟩ := hd
    obtain ⟨ho1, he1, tlo, tle, hone1, htail, hout, herrs⟩ := merge_entries_cons_ok h
    rcases List.mem_cons.mp hmem with heq | hrest
    · injection heq with hk hv
      subst hk
      subst hv
      refine ⟨ho1, he1, hone1, ?_, ?_⟩
      · intro p hp
        rw [hout]
        exact List.mem_append_left _ hp
      · intro e he2
        rw [herrs]
        exact List.mem_append_left _ he2
    · obtain ⟨ho2, he2, hone2, hpo, hpe⟩ := ih hrest htail
      refine ⟨ho2, he2, hone2, ?_, ?_⟩
      · intro p hp
        rw [hout]
        exact List.mem_append_right _ (hpo p hp)
      · intro e he2
        rw [herrs]
        exact List.mem_append_right _ (hpe e he2)

/-- C2: whenever `_rec_merge_ours` succeeds at a level, its result is a
dict whose keys are exactly the defaults view's keys, and its error list
is the level's unexpected-key reports followed by the per-entry errors.
Every user key unknown to the defaults view yields a
"Found unexpected {section|keyword}" error (a section exactly when the
value is a mapping) and is absent from the merged output.  Every defaults
entry contributes: for a null default missing from the user input, a null
slot plus a required-keyword error (processing continuing); for a
non-null default missing from the user input, the default verbatim; for a
section present on both sides, the recursive merge with all of its errors
collected into the same run's list; otherwise the user value verbatim.
All missing-required and unexpected keys are thus reported in one run. -/
theorem merge_engine_characterization
    {theirsE oursE : List (String × Value)} {address : List String}
    {result : Value} {errors : List Error}
    (h : rec_merge_ours (.vdict theirsE) (.vdict oursE) address = .ok (result, errors)) :
    ∃ out merrs,
      merge_entries theirsE oursE address = .ok (out, merrs) ∧
      result = .vdict out ∧
      errors = unexpected_errors theirsE oursE ++ merrs ∧
      dictKeys out = dictKeys theirsE ∧
      (∀ k ∈ dictKeys oursE, dictHas theirsE k = false →
        (⟨[], "Found unexpected " ++
            (if (dictGetD oursE k).isDict then "section" else "keyword") ++
            ": '" ++ k ++ "'."⟩ : Error) ∈ errors ∧ k ∉ dictKeys out) ∧
      (∀ k v, (k, v) ∈ theirsE →
        (dictHas oursE k = false ∧ v = .vnull →
          (k, Value.vnull) ∈ out ∧
          (⟨address ++ [k],
            "Keyword '" ++ k ++ "' is required but has no value."⟩ : Error) ∈ errors) ∧
        (dictHas oursE k = false ∧ v ≠ .vnull → (k, v) ∈ out) ∧
        (∀ sub, dictHas oursE k = true ∧ v = .vdict sub →
          ∃ oursSub m me, dictGetD oursE k = .vdict oursSub ∧
            rec_merge_ours (.vdict sub) (.vdict oursSub) (address ++ [k]) =
              .ok (.vdict m, unexpected_errors sub oursSub ++ me) ∧
            (k, Value.vdict m) ∈ out ∧
            (∀ e ∈ unexpected_errors sub oursSub ++ me, e ∈ errors)) ∧
        (dictHas oursE k = true ∧ v.isDict = false →
          (k, dictGetD oursE k) ∈ out)) := by
  have hrw : rec_merge_ours (.vdict theirsE) (.vdict oursE) address = (do
      let merged ← merge_entries theirsE oursE address
      Except.ok (Value.vdict merged.fst,
        unexpected_errors theirsE oursE ++ merged.snd)) := rfl
  rw [hrw] at h
  cases hm : merge_entries theirsE oursE address with
  | error e => rw [hm, exbind_error] at h; exact absurd h (by simp)
  | ok m =>
    obtain ⟨mo, me0⟩ := m
    rw [hm, exbind_ok] at h
    have hres : result = .vdict mo := (congrArg Prod.fst (Except.ok.inj h)).symm
    have herr : errors = unexpected_errors theirsE oursE ++ me0 :=
      (congrArg Prod.snd (Except.ok.inj h)).symm
    have hkeys : dictKeys mo = dictKeys theirsE := merge_entries_ok_keys hm
    refine ⟨mo, me0, rfl, hres, herr, hkeys, ?_, ?_⟩
    · intro k hk hh
      constructor
      · rw [herr]
        exact List.mem_append_left _ (mem_unexpected_errors hk hh)
      · rw [hkeys]
        exact dictHas_false_not_mem hh
    · intro k v hmem
      obtain ⟨ho, he, hone, hpo, hpe⟩ := merge_entries_entry_ok hmem hm
      refine ⟨?_, ?_, ?_, ?_⟩
      · rintro ⟨hnh, hv⟩
        subst hv
        rw [@merge_one_missing_null k oursE address hnh] at hone
        have hp := Except.ok.inj hone
        have hho : ([(k, Value.vnull)] : List (String × Value)) = ho :=
          congrArg Prod.fst hp
        have hhe : ([⟨address ++ [k],
            "Keyword '" ++ k ++ "' is required but has no value."⟩] : List Error) = he :=
          congrArg Prod.snd hp
        constructor
        · exact hpo _ (hho ▸ List.mem_singleton_self _)
        · rw [herr]
          exact List.mem_append_right _ (hpe _ (hhe ▸ List.mem_singleton_self _))
      · rintro ⟨hnh, hv⟩
        rw [merge_one_missing_nonnull hnh hv] at hone
        have hho : ([(k, v)] : List (String × Value)) = ho :=
          congrArg Prod.fst (Except.ok.inj hone)
        exact hpo _ (hho ▸ List.mem_singleton_self _)
      · rintro sub ⟨hh, hv⟩
        subst hv
        obtain ⟨oursSub, mm, me, hg, hsub, hrec, hoeq, heeq⟩ :=
          merge_one_present_dict_ok hh hone
        refine ⟨oursSub, mm, me, hg, hrec, ?_, ?_⟩
        · exact hpo _ (hoeq ▸ List.mem_singleton_self _)
        · intro e hee
          rw [herr]
          exact List.mem_append_right _ (hpe e (heeq ▸ hee))
      · rintro ⟨hh, hv⟩
        rw [merge_one_present_nondict hh hv] at hone
        have hho : ([(k, dictGetD oursE k)] : List (String × Value)) = ho :=
          congrArg Prod.fst (Except.ok.inj hone)
        exact hpo _ (hho ▸ List.mem_singleton_self _)

/-- Witness for C2 at a concrete input with two unexpected keys in
different sections: both are reported in one run, neither reaches the
output, and each missing non-null default is filled in. -/
theorem merge_engine_characterization_witness :
    ∃ out merrs,
      merge_entries tsW osW [] = .ok (out, merrs) ∧
      resW = .vdict out ∧
      errsW = unexpected_errors tsW osW ++ merrs ∧
      dictKeys out = dictKeys tsW ∧
      (∀ k ∈ dictKeys osW, dictHas tsW k = false →
        (⟨[], "Found unexpected " ++
            (if (dictGetD osW k).isDict then "section" else "keyword") ++
            ": '" ++ k ++ "'."⟩ : Error) ∈ errsW ∧ k ∉ dictKeys out) ∧
      (∀ k v, (k, v) ∈ tsW →
        (dictHas osW k = false ∧ v = .vnull →
          (k, Value.vnull) ∈ out ∧
          (⟨[] ++ [k],
            "Keyword '" ++ k ++ "' is required but has no value."⟩ : Error) ∈ errsW) ∧
        (dictHas osW k = false ∧ v ≠ .vnull → (k, v) ∈ out) ∧
        (∀ sub, dictHas osW k = true ∧ v = .vdict sub →
          ∃ oursSub m me, dictGetD osW k = .vdict oursSub ∧
            rec_merge_ours (.vdict sub) (.vdict oursSub) ([] ++ [k]) =
              .ok (.vdict m, unexpected_errors sub oursSub ++ me) ∧
            (k, Value.vdict m) ∈ out ∧
            (∀ e ∈ unexpected_errors sub oursSub ++ me, e ∈ errsW)) ∧
        (dictHas osW k = true ∧ v.isDict = false →
          (k, dictGetD osW k) ∈ out)) :=
  merge_engine_characterization (by rfl)

theorem removeFirstNamed_perm {n : String} {l : List Keyword}
    {x : Keyword} {rest : List Keyword}
    (h : removeFirstNamed n l = some (x, rest)) : l.Perm (x :: rest) := by
  induction l generalizing rest with
  | nil => exact absurd h (by simp [removeFirstNamed])
  | cons k tl ih =>
    unfold removeFirstNamed at h
    by_cases hk : (k.name == n) = true
    · rw [if_pos hk] at h
      have hp := Option.some.inj h
      have hx : k = x := congrArg Prod.fst hp
      have hr : tl = rest := congrArg Prod.snd hp
      rw [hx, hr]
    · rw [if_neg hk] at h
      cases hrec : removeFirstNamed n tl with
      | none => rw [hrec] at h; exact absurd h (by simp)
      | some p =>
        rw [hrec] at h
        obtain ⟨y, rest2⟩ := p
        have hp := Option.some.inj h
        have hx : y = x := congrArg Prod.fst hp
        have hr : k :: rest2 = rest := congrArg Prod.snd hp
        subst hx
        rw [← hr]
        exact List.Perm.trans (List.Perm.cons k (ih hrec)) (List.Perm.swap y k rest2)

theorem shuffle_fold_perm (ns : List String) :
    ∀ kws acc : List Keyword,
      (((ns.foldl (fun (st : List Keyword × List Keyword) node =>
          match removeFirstNamed node st.fst with
          | some p => (p.snd, st.snd ++ [p.fst])
          | none => st) (kws, acc)).fst ++
        (ns.foldl (fun (st : List Keyword × List Keyword) node =>
          match removeFirstNamed node st.fst with
          | some p => (p.snd, st.snd ++ [p.fst])
          | none => st) (kws, acc)).snd)).Perm (kws ++ acc) := by
  induction ns with
  | nil => intro kws acc; exact List.Perm.refl _
  | cons n ns ih =>
    intro kws acc
    rw [List.foldl_cons]
    cases hrem : removeFirstNamed n kws with
    | none =>
      simp only [hrem]
      exact ih kws acc
    | some p =>
      obtain ⟨x, rest⟩ := p
      simp only [hrem]
      refine (ih rest (acc ++ [x])).trans ?_
      have h1 : (rest ++ (acc ++ [x])).Perm ((rest ++ acc) ++ [x]) := by
        rw [List.append_assoc]
      have h2 : ((rest ++ acc) ++ [x]).Perm ([x] ++ (rest ++ acc)) :=
        List.perm_append_comm
      have h3 : ([x] ++ (rest ++ acc)) = ((x :: rest) ++ acc) := rfl
      have h4 : ((x :: rest) ++ acc).Perm (kws ++ acc) :=
        List.Perm.append_right acc (removeFirstNamed_perm hrem).symm
      exact (h1.trans h2).trans (h3 ▸ h4)

/-- C5 counterexample: on `tplChain` (`b` referencing `c`, `a`
referencing `b`, declared as `[b, a, c]`) the checker succeeds but
returns keyword order `[a, c, b]`, in which `a`'s default references the
later sibling `b` — the reordering is not the claimed topological
ordering. -/
theorem reorder_later_sibling_counterexample :
    is_template_valid tplChain = .ok chainReordered ∧
    ¬ NoLaterSiblingRefs chainReordered.keywords := by
  constructor
  · rfl
  · unfold NoLaterSiblingRefs
    decide

/-- C5 (amended): for a well-formed schema with no cyclic defaults the
checker succeeds and returns `reorder_template`, which at each node keeps
the name, docstring and recursively reordered sections, and permutes the
keyword list: the keywords named by dependency-graph nodes are moved to
the back in reversed node-insertion order.  The result is a permutation
of the original keywords, but need not place every keyword after the
siblings its default references. -/
theorem reorder_template_characterization {template : Template}
    (h1 : rec_is_template_valid template [] = [])
    (h2 : check_cyclic_defaults template = .ok []) :
    is_template_valid template = .ok (reorder_template template) ∧
    ∃ kws2, reorder_template template =
        .mk template.name template.docstring kws2
          (rec_reorder_sections template.sections) ∧
      kws2.Perm template.keywords := by
  constructor
  · unfold is_template_valid
    rw [h2]
    simp only [h1]
    rfl
  · cases template with
    | mk n d kws secs =>
      refine ⟨_, rfl, ?_⟩
      have hp := shuffle_fold_perm
        (((graphNodes (sections_default_dependencies
          (view_by_default_keywords kws) [])).map
            (fun x => x.getLastD "")).reverse) kws []
      rw [List.append_nil] at hp
      exact hp

/-- Witness for C5 (amended) at `tplScf`: the schema check and cycle
check pass, the checker returns the reordered template, and the
reordered `scf` fixture's top node keeps its shape with permuted
keywords. -/
theorem reorder_template_characterization_witness :
    rec_is_template_valid tplScf [] = [] ∧
    check_cyclic_defaults tplScf = .ok [] ∧
    (is_template_valid tplScf = .ok (reorder_template tplScf) ∧
     ∃ kws2, reorder_template tplScf =
         .mk tplScf.name tplScf.docstring kws2
           (rec_reorder_sections tplScf.sections) ∧
       kws2.Perm tplScf.keywords) :=
  ⟨rfl, rfl, reorder_template_characterization (by rfl) (by rfl)⟩

theorem mem_addNode_self {acc : List GNode} {n : GNode} : n ∈ addNode acc n := by
  unfold addNode
  by_cases hc : acc.contains n
  · rw [if_pos hc]
    simpa using hc
  · rw [if_neg hc]
    exact List.mem_append_right _ (List.mem_singleton_self n)

theorem mem_addNode_of_mem {acc : List GNode} {n x : GNode} (h : x ∈ acc) :
    x ∈ addNode acc n := by
  unfold addNode
  by_cases hc : acc.contains n
  · rw [if_pos hc]; exact h
  · rw [if_neg hc]; exact List.mem_append_left _ h

theorem addNode_nodup {acc : List GNode} {n : GNode} (h : acc.Nodup) :
    (addNode acc n).Nodup := by
  unfold addNode
  by_cases hc : acc.contains n
  · rw [if_pos hc]; exact h
  · rw [if_neg hc]
    refine List.Nodup.append h (List.nodup_singleton n) ?_
    intro x hx hxs
    rw [List.mem_singleton] at hxs
    subst hxs
    exact hc (by simpa using hx)

theorem foldl_addNode_mem {edges : List (GNode × GNode)} {x : GNode} :
    ∀ {acc : List GNode}, x ∈ acc →
      x ∈ edges.foldl (fun acc e => addNode (addNode acc e.fst) e.snd) acc := by
  induction edges with
  | nil => intro acc h; exact h
  | cons e rest ih =>
    intro acc h
    exact ih (mem_addNode_of_mem (mem_addNode_of_mem h))

theorem mem_graphNodes_of_edge {edges : List (GNode × GNode)} {e : GNode × GNode}
    (h : e ∈ edges) :
    e.fst ∈ graphNodes edges ∧ e.snd ∈ graphNodes edges := by
  unfold graphNodes
  suffices hgen : ∀ acc : List GNode,
      e.fst ∈ edges.foldl (fun acc e2 => addNode (addNode acc e2.fst) e2.snd) acc ∧
      e.snd ∈ edges.foldl (fun acc e2 => addNode (addNode acc e2.fst) e2.snd) acc by
    exact hgen []
  induction edges with
  | nil => cases h
  | cons e2 rest ih =>
    intro acc
    rw [List.foldl_cons]
    rcases List.mem_cons.mp h with heq | hrest
    · subst heq
      exact ⟨foldl_addNode_mem (mem_addNode_of_mem mem_addNode_self),
             foldl_addNode_mem mem_addNode_self⟩
    · exact ih hrest _

theorem hasEdge_mem {edges : List (GNode × GNode)} {u v : GNode}
    (h : hasEdge edges u v = true) :
    u ∈ graphNodes edges ∧ v ∈ graphNodes edges := by
  unfold hasEdge at h
  obtain ⟨e, he, hb⟩ := List.any_eq_true.mp h
  rw [Bool.and_eq_true] at hb
  have hu : e.fst = u := by simpa using hb.1
  have hv : e.snd = v := by simpa using hb.2
  have := mem_graphNodes_of_edge he
  rw [hu, hv] at this
  exact this

theorem graphNodes_nodup {edges : List (GNode × GNode)} :
    (graphNodes edges).Nodup := by
  unfold graphNodes
  suffices hgen : ∀ acc : List GNode, acc.Nodup →
      (edges.foldl (fun acc e => addNode (addNode acc e.fst) e.snd) acc).Nodup by
    exact hgen [] List.nodup_nil
  induction edges with
  | nil => intro acc h; exact h
  | cons e rest ih =>
    intro acc h
    exact ih _ (addNode_nodup (addNode_nodup h))

theorem chainAdj_mem {edges : List (GNode × GNode)} :
    ∀ {u : GNode} {rest : List GNode}, chainAdj edges (u :: rest) = true →
      ∀ x ∈ rest, x ∈ graphNodes edges := by
  intro u rest
  induction rest generalizing u with
  | nil => intro _ x hx; cases hx
  | cons v rest2 ih =>
    intro h x hx
    unfold chainAdj at h
    rw [Bool.and_eq_true] at h
    rcases List.mem_cons.mp hx with heq | hx2
    · subst heq
      exact (hasEdge_mem h.1).2
    · exact ih h.2 x hx2

theorem isCycleChain_mem {edges : List (GNode × GNode)} {c : List GNode}
    (h : isCycleChain edges c = true) : ∀ x ∈ c, x ∈ graphNodes edges := by
  cases c with
  | nil => intro x hx; cases hx
  | cons hd t =>
    unfold isCycleChain at h
    rw [Bool.and_eq_true] at h
    intro x hx
    rcases List.mem_cons.mp hx with heq | hx2
    · subst heq
      exact (hasEdge_mem h.2).2
    · exact chainAdj_mem h.1 x hx2

theorem getLastD_nonempty_irrel {u d d2 : GNode} {t : List GNode} :
    (u :: t).getLastD d = (u :: t).getLastD d2 := by
  rw [List.getLastD_cons, List.getLastD_cons]

theorem chainAdj_append_singleton {edges : List (GNode × GNode)} {a : GNode} :
    ∀ {u : GNode} {t : List GNode},
      chainAdj edges ((u :: t) ++ [a]) =
        (chainAdj edges (u :: t) && hasEdge edges ((u :: t).getLastD a) a) := by
  intro u t
  induction t generalizing u with
  | nil =>
    show chainAdj edges [u, a] = (chainAdj edges [u] && hasEdge edges u a)
    unfold chainAdj
    cases hasEdge edges u a <;> rfl
  | cons v t2 ih =>
    show (hasEdge edges u v && chainAdj edges ((v :: t2) ++ [a])) =
      (chainAdj edges (u :: v :: t2) && hasEdge edges ((u :: v :: t2).getLastD a) a)
    rw [ih]
    have hl : (u :: v :: t2).getLastD a = (v :: t2).getLastD a := by
      rw [List.getLastD_cons, @getLastD_nonempty_irrel v u a t2]
    rw [hl]
    show (hasEdge edges u v &&
        (chainAdj edges (v :: t2) && hasEdge edges ((v :: t2).getLastD a) a)) =
      ((hasEdge edges u v && chainAdj edges (v :: t2)) &&
        hasEdge edges ((v :: t2).getLastD a) a)
    cases hasEdge edges u v <;> cases chainAdj edges (v :: t2) <;>
      cases hasEdge edges ((v :: t2).getLastD a) a <;> rfl

theorem isCycleChain_append_singleton {edges : List (GNode × GNode)}
    {a : GNode} {l : List GNode} :
    isCycleChain edges (l ++ [a]) = isCycleChain edges (a :: l) := by
  cases l with
  | nil => rfl
  | cons u t =>
    show (chainAdj edges ((u :: t) ++ [a]) &&
        hasEdge edges (((u :: t) ++ [a]).getLastD u) u) =
      (chainAdj edges (a :: u :: t) && hasEdge edges ((a :: u :: t).getLastD a) a)
    rw [chainAdj_append_singleton, List.getLastD_concat]
    have hl2 : (a :: u :: t).getLastD a = (u :: t).getLastD a :=
      List.getLastD_cons a a (u :: t)
    rw [hl2]
    show ((chainAdj edges (u :: t) && hasEdge edges ((u :: t).getLastD a) a) &&
        hasEdge edges a u) =
      ((hasEdge edges a u && chainAdj edges (u :: t)) &&
        hasEdge edges ((u :: t).getLastD a) a)
    cases chainAdj edges (u :: t) <;> cases hasEdge edges ((u :: t).getLastD a) a <;>
      cases hasEdge edges a u <;> rfl

theorem isCycleChain_rotate {edges : List (GNode × GNode)} :
    ∀ (n : Nat) (c : List GNode),
      isCycleChain edges (c.rotate n) = isCycleChain edges c := by
  intro n
  induction n with
  | zero => intro c; rw [List.rotate_zero]
  | succ n ih =>
    intro c
    cases c with
    | nil => rfl
    | cons a l =>
      rw [List.rotate_cons_succ, ih (l ++ [a]), isCycleChain_append_singleton]

theorem exists_min_image_list {α : Type} (f : α → Nat) :
    ∀ c : List α, c ≠ [] → ∃ m ∈ c, ∀ x ∈ c, f m ≤ f x := by
  intro c
  induction c with
  | nil => intro h; exact absurd rfl h
  | cons h t ih =>
    intro _
    cases t with
    | nil =>
      refine ⟨h, List.mem_singleton_self h, ?_⟩
      intro x hx
      rw [List.mem_singleton] at hx
      rw [hx]
    | cons h2 t2 =>
      obtain ⟨m0, hm0, hmin0⟩ := ih (by simp)
      by_cases hle : f h ≤ f m0
      · refine ⟨h, List.mem_cons_self h _, ?_⟩
        intro x hx
        rcases List.mem_cons.mp hx with heq | hx2
        · rw [heq]
        · exact le_trans hle (hmin0 x hx2)
      · refine ⟨m0, List.mem_cons_of_mem h hm0, ?_⟩
        intro x hx
        rcases List.mem_cons.mp hx with heq | hx2
        · rw [heq]; exact le_of_not_le hle
        · exact hmin0 x hx2

theorem exists_rotation_head {α : Type} [DecidableEq α] {x : α} {c : List α}
    (hx : x ∈ c) : ∃ t, List.IsRotated c (x :: t) := by
  have hi : c.indexOf x < c.length := List.indexOf_lt_length.mpr hx
  refine ⟨(c.drop (c.indexOf x + 1)) ++ c.take (c.indexOf x), ⟨c.indexOf x, ?_⟩⟩
  rw [List.rotate_eq_drop_append_take (le_of_lt hi)]
  rw [List.drop_eq_getElem_cons hi]
  simp [List.getElem_indexOf hi]

theorem mem_insertEverywhere_of_erase {α : Type} [DecidableEq α] {x : α} :
    ∀ {c : List α}, x ∈ c → c ∈ insertEverywhere x (c.erase x) := by
  intro c
  induction c with
  | nil => intro h; cases h
  | cons y t ih =>
    intro hx
    by_cases hyx : y = x
    · subst hyx
      rw [List.erase_cons_head]
      unfold insertEverywhere
      cases t with
      | nil => exact List.mem_singleton_self _
      | cons z t2 => exact List.mem_cons_self _ _
    · have hxt : x ∈ t := by
        rcases List.mem_cons.mp hx with heq | ht
        · exact absurd heq.symm hyx
        · exact ht
      rw [List.erase_cons_tail (by simpa using (fun h => hyx (by simpa using h)))]
      unfold insertEverywhere
      refine List.mem_cons_of_mem _ ?_
      exact List.mem_map.mpr ⟨t, ih hxt, rfl⟩

theorem mem_permsOf_of_perm {α : Type} [DecidableEq α] :
    ∀ {s c : List α}, c.Perm s → c ∈ permsOf s := by
  intro s
  induction s with
  | nil =>
    intro c hc
    rw [List.perm_nil] at hc
    rw [hc]
    exact List.mem_singleton_self _
  | cons x xs ih =>
    intro c hc
    have h2 := (List.cons_perm_iff_perm_erase.mp hc.symm)
    unfold permsOf
    refine List.mem_flatMap.mpr ⟨c.erase x, ih h2.2.symm, ?_⟩
    exact mem_insertEverywhere_of_erase h2.1

theorem mem_sublistsOf_of_sublist {α : Type} :
    ∀ {l s : List α}, s.Sublist l → s ∈ sublistsOf l := by
  intro l
  induction l with
  | nil =>
    intro s hs
    rw [List.sublist_nil] at hs
    rw [hs]
    exact List.mem_singleton_self _
  | cons x xs ih =>
    intro s hs
    unfold sublistsOf
    cases hs with
    | cons _ htail =>
      exact List.mem_flatMap.mpr ⟨s, ih htail, List.mem_cons_self _ _⟩
    | cons₂ _ htail =>
      exact List.mem_flatMap.mpr ⟨_, ih htail,
        List.mem_cons_of_mem _ (List.mem_singleton_self _)⟩

theorem mem_simple_cycles {edges : List (GNode × GNode)} {c : List GNode}
    (hne : c ≠ []) (hnd : c.Nodup) (hch : isCycleChain edges c = true)
    (hcan : isCanonicalCycle (graphNodes edges) c = true) :
    c ∈ simple_cycles edges := by
  show c ∈ ((sublistsOf (graphNodes edges)).flatMap permsOf).filter
    (fun c2 => !c2.isEmpty && decide c2.Nodup && isCycleChain edges c2 &&
               isCanonicalCycle (graphNodes edges) c2)
  refine List.mem_filter.mpr ⟨?_, ?_⟩
  · refine List.mem_flatMap.mpr
      ⟨(graphNodes edges).filter (fun x => decide (x ∈ c)), ?_, ?_⟩
    · exact mem_sublistsOf_of_sublist (List.filter_sublist _)
    · refine mem_permsOf_of_perm ?_
      refine (List.perm_ext_iff_of_nodup hnd
        (List.Nodup.filter _ graphNodes_nodup)).mpr ?_
      intro a
      constructor
      · intro ha
        exact List.mem_filter.mpr ⟨isCycleChain_mem hch a ha, by simpa using ha⟩
      · intro ha
        have hmf := List.mem_filter.mp ha
        simpa using hmf.2
  · rw [Bool.and_eq_true, Bool.and_eq_true, Bool.and_eq_true]
    refine ⟨⟨⟨?_, decide_eq_true hnd⟩, hch⟩, hcan⟩
    cases c with
    | nil => exact absurd rfl hne
    | cons h t => rfl

theorem simple_cycles_two_le {edges : List (GNode × GNode)}
    (hs : ∀ u ∈ graphNodes edges, hasEdge edges u u = false) :
    ∀ c ∈ simple_cycles edges, 2 ≤ c.length := by
  intro c hc
  have hc2 : c ∈ ((sublistsOf (graphNodes edges)).flatMap permsOf).filter
      (fun c2 => !c2.isEmpty && decide c2.Nodup && isCycleChain edges c2 &&
                 isCanonicalCycle (graphNodes edges) c2) := hc
  have hb := (List.mem_filter.mp hc2).2
  rw [Bool.and_eq_true, Bool.and_eq_true, Bool.and_eq_true] at hb
  cases c with
  | nil => exact absurd hb.1.1.1 (by simp)
  | cons u t =>
    cases t with
    | nil =>
      have hch : isCycleChain edges [u] = true := hb.1.2
      have hloop : hasEdge edges u u = true := by
        have he : isCycleChain edges [u] = (true && hasEdge edges u u) := rfl
        rw [he, Bool.true_and] at hch
        exact hch
      have hu : u ∈ graphNodes edges := (hasEdge_mem hloop).1
      rw [hs u hu] at hloop
      exact Bool.noConfusion hloop
    | cons v t2 => simp

theorem mapM_mkCycError :
    ∀ {cs : List (List GNode)}, (∀ c ∈ cs, 2 ≤ c.length) →
      cs.mapM (fun c =>
        match c with
        | c0 :: c1 :: _ =>
          Except.ok (⟨c0, "Keyword depends cyclically on keyword " ++
            location_in_dict c1⟩ : Error)
        | _ => Except.error (PyExc.indexError "list index out of range")) =
      Except.ok (cs.map mkCycError) := by
  intro cs
  induction cs with
  | nil => intro h2; rfl
  | cons c rest ih =>
    intro h2
    rw [List.mapM_cons]
    cases c with
    | nil =>
      have := h2 [] (List.mem_cons_self _ _)
      simp at this
    | cons c0 ct =>
      cases ct with
      | nil =>
        have := h2 [c0] (List.mem_cons_self _ _)
        simp at this
      | cons c1 ct2 =>
        rw [ih (fun c2 hc2 => h2 c2 (List.mem_cons_of_mem _ hc2))]
        rfl

theorem check_cyclic_defaults_enumerates {template : Template}
    (h2 : ∀ c ∈ simple_cycles (depsOf template), 2 ≤ c.length) :
    check_cyclic_defaults template =
      .ok ((simple_cycles (depsOf template)).map mkCycError) := by
  have hrw : check_cyclic_defaults template =
      (simple_cycles (depsOf template)).mapM (fun c =>
        match c with
        | c0 :: c1 :: _ =>
          Except.ok (⟨c0, "Keyword depends cyclically on keyword " ++
            location_in_dict c1⟩ : Error)
        | _ => Except.error (PyExc.indexError "list index out of range")) := rfl
  rw [hrw]
  exact mapM_mkCycError h2

/-- C4 (amended): for every schema whose default-dependency graph has a
simple cycle (and no self-loops), the cycle checker enumerates it — some
rotation appears in the enumeration — and returns exactly ONE
"Keyword depends cyclically on keyword X" error per simple cycle,
addressed at the cycle's canonical first member and naming its second
member (not one error per cycle member); the resulting error list is
non-empty and `is_template_valid` fails with the collated report, before
any default resolution. -/
theorem cyclic_defaults_characterization {template : Template} {c : List GNode}
    (hc : IsSimpleCycle (depsOf template) c)
    (hs : ∀ u ∈ graphNodes (depsOf template),
      hasEdge (depsOf template) u u = false) :
    (∃ c2, List.IsRotated c c2 ∧ c2 ∈ simple_cycles (depsOf template)) ∧
    check_cyclic_defaults template =
      .ok ((simple_cycles (depsOf template)).map mkCycError) ∧
    (simple_cycles (depsOf template)).map mkCycError ≠ [] ∧
    is_template_valid template =
      .error (.raised (collate_errors "checking the template"
        (rec_is_template_valid template [] ++
         (simple_cycles (depsOf template)).map mkCycError))) := by
  obtain ⟨hne, hnd, hch⟩ := hc
  obtain ⟨m, hm, hmin⟩ := exists_min_image_list
    (fun x => (graphNodes (depsOf template)).indexOf x) c hne
  obtain ⟨t, hrot⟩ := exists_rotation_head hm
  have hperm : c.Perm (m :: t) := List.IsRotated.perm hrot
  obtain ⟨n, hn⟩ := hrot
  have hnd2 : (m :: t).Nodup := (List.Perm.nodup_iff hperm).mp hnd
  have hch2 : isCycleChain (depsOf template) (m :: t) = true := by
    rw [← hn, isCycleChain_rotate]
    exact hch
  have hcan : isCanonicalCycle (graphNodes (depsOf template)) (m :: t) = true := by
    show (m :: t).all (fun x =>
      (graphNodes (depsOf template)).indexOf m ≤
        (graphNodes (depsOf template)).indexOf x) = true
    refine List.all_eq_true.mpr ?_
    intro x hx
    have hxc : x ∈ c := (List.Perm.mem_iff hperm).mpr hx
    exact decide_eq_true (hmin x hxc)
  have hmem : (m :: t) ∈ simple_cycles (depsOf template) :=
    mem_simple_cycles (List.cons_ne_nil m t) hnd2 hch2 hcan
  have h2 := simple_cycles_two_le hs
  have hcc := check_cyclic_defaults_enumerates h2
  have hne3 : (simple_cycles (depsOf template)).map mkCycError ≠ [] := by
    intro hmap
    rw [List.map_eq_nil_iff] at hmap
    rw [hmap] at hmem
    cases hmem
  have hemp : (rec_is_template_valid template [] ++
      (simple_cycles (depsOf template)).map mkCycError).isEmpty = false :=
    isEmpty_false_of_ne_nil (fun happ => hne3 (List.append_eq_nil.mp happ).2)
  refine ⟨⟨m :: t, ⟨n, hn⟩, hmem⟩, hcc, hne3, ?_⟩
  unfold is_template_valid
  rw [hcc]
  simp only [hemp]
  rfl

/-- C4 counterexample: on `tplCycle` (keywords `A` and `B` whose defaults
reference each other) the dependency graph has the simple cycle
`A -> B -> A` with the two members `A` and `B`, yet the checker reports a
single error — addressed at `A` and naming `B` — so the report does NOT
contain one cyclic-dependency error per member of the cycle. -/
theorem cyclic_error_per_member_counterexample :
    IsSimpleCycle (depsOf tplCycle) [["A"], ["B"]] ∧
    check_cyclic_defaults tplCycle =
      .ok [⟨["A"], "Keyword depends cyclically on keyword user['B']"⟩] ∧
    ¬ (∀ m ∈ [[("A" : String)], ["B"]],
        ∃ e ∈ [(⟨["A"],
          "Keyword depends cyclically on keyword user['B']"⟩ : Error)],
          e.address = m) :=
  ⟨⟨by decide, by decide, rfl⟩, rfl, by decide⟩

/-- Witness for C4 (amended) on `tplCycle`: the `A`/`B` cycle is
enumerated up to rotation, the checker reports one error per simple
cycle, the report is non-empty, and the template check fails with the
collated report. -/
theorem cyclic_defaults_characterization_witness :
    (∃ c2, List.IsRotated [[("A" : String)], ["B"]] c2 ∧
      c2 ∈ simple_cycles (depsOf tplCycle)) ∧
    check_cyclic_defaults tplCycle =
      .ok ((simple_cycles (depsOf tplCycle)).map mkCycError) ∧
    (simple_cycles (depsOf tplCycle)).map mkCycError ≠ [] ∧
    is_template_valid tplCycle =
      .error (.raised (collate_errors "checking the template"
        (rec_is_template_valid tplCycle [] ++
         (simple_cycles (depsOf tplCycle)).map mkCycError))) :=
  cyclic_defaults_characterization ⟨by decide, by decide, rfl⟩ (by decide)
